import Mathlib

/-!
Shallow embedding of the Warehouse Worker game (src/ww.py).

Actors are records; the Stage is a store of actor records (objects, which in
Python survive removal from the stage) together with the stage's actor list
(`stage`, a list of actor ids in registration order).  Python `None` results
of `move` are modelled as `Option.none` inside `Option Bool`; an uncaught
exception (TypeError on subscripting None, ZeroDivisionError on `% 0`,
ValueError on removing an absent actor) or non-termination of the recursive
move protocol is modelled as the outer `Option.none` of each operation.
-/

namespace WW

/-- The concrete actor classes instantiated by the game.  `isinstance` facts
from the Python class hierarchy: StickyBox is a Box; NormalMonster, EzMonster,
ExplodingMonster and Flame are Monsters. -/
inductive Kind where
  | wall
  | box
  | stickyBox
  | player
  | normalMonster
  | ezMonster
  | explodingMonster
  | flame
deriving DecidableEq

/-- isinstance(_, Monster): Flame subclasses Monster in ww.py. -/
def Kind.isMonster : Kind → Bool
  | .normalMonster => true
  | .ezMonster => true
  | .explodingMonster => true
  | .flame => true
  | _ => false

/-- isinstance(_, Box): StickyBox subclasses Box. -/
def Kind.isBox : Kind → Bool
  | .box => true
  | .stickyBox => true
  | _ => false

/-- One Python actor object: position, life, delay bookkeeping, the monster
fields (_dx, _dy, stuck, stick_with, stick_position) and the keyboard-player
fields (dead flag, last event buffer).  `stickWith` holds the id of the
referenced box object; `lastEvent` is `some d` for a buffered key decoding to
direction `d`, `some none` for a buffered unrecognized key, `none` for an
empty buffer. -/
structure WActor where
  id : Nat
  kind : Kind
  x : Int
  y : Int
  life : Int
  delayN : Nat
  delayCount : Nat
  dx : Int
  dy : Int
  stuck : Bool
  stickWith : Option Nat
  stickPos : Option (Int × Int)
  dead : Bool
  lastEvent : Option (Option (Int × Int))
deriving DecidableEq

/-- The Stage: `store` holds every actor object ever created (Python objects
outlive their removal from the stage list), `stage` is `Stage._actors` as a
list of ids in registration order, `nextId` supplies ids for actors the
simulation itself creates (Flames). -/
structure GState where
  store : List WActor
  stage : List Nat
  width : Int
  height : Int
  nextId : Nat
deriving DecidableEq

/-- First object in a list with the given id. -/
def lookupA : List WActor → Nat → Option WActor
  | [], _ => none
  | b :: bs, aid => if b.id = aid then some b else lookupA bs aid

/-- Dereference an actor object by id. -/
def findActor (s : GState) (aid : Nat) : Option WActor :=
  lookupA s.store aid

/-- Mutate an actor object in place (replace the store entry with its id). -/
def setActor (s : GState) (a : WActor) : GState :=
  { s with store := s.store.map fun b => if b.id = a.id then a else b }

/-- Stage.is_in_bounds_x -/
def is_in_bounds_x (s : GState) (x : Int) : Bool :=
  decide (0 ≤ x) && decide (x < s.width)

/-- Stage.is_in_bounds_y -/
def is_in_bounds_y (s : GState) (y : Int) : Bool :=
  decide (0 ≤ y) && decide (y < s.height)

/-- Stage.is_in_bounds -/
def is_in_bounds (s : GState) (x y : Int) : Bool :=
  is_in_bounds_x s x && is_in_bounds_y s y

/-- First object in a list at the given position. -/
def firstAt : List WActor → Int → Int → Option WActor
  | [], _, _ => none
  | b :: bs, x, y => if b.x = x ∧ b.y = y then some b else firstAt bs x y

/-- Stage.get_actor: first actor in the stage list whose position is (x,y). -/
def get_actor (s : GState) (x y : Int) : Option WActor :=
  firstAt (s.stage.filterMap (findActor s)) x y

/-- list.remove: drop the first occurrence, ValueError (none) if absent. -/
def removeFirst (l : List Nat) (aid : Nat) : Option (List Nat) :=
  match l with
  | [] => none
  | b :: bs => if b = aid then some bs else (removeFirst bs aid).map (b :: ·)

/-- Stage.remove_actor -/
def remove_actor (s : GState) (aid : Nat) : Option GState :=
  (removeFirst s.stage aid).map fun l => { s with stage := l }

/-- Stage.add_actor -/
def add_actor (s : GState) (a : WActor) : GState :=
  { s with store := s.store ++ [a], stage := s.stage ++ [a.id] }

/-- Actor.is_dead -/
def is_dead (a : WActor) : Bool :=
  if a.life = 0 then true else false

/-- KeyboardPlayer.is_dead: returns the boolean together with the mutated
player object (sets the `dead` flag, with the audio side effect, exactly once). -/
def kb_is_dead (a : WActor) : Bool × WActor :=
  if a.life = 0 ∧ a.dead = false then (true, { a with dead := true })
  else if a.life = 0 then (true, a)
  else (false, a)

/-- Actor.move: unconditional relocation of the given (current) actor object
by (dx, dy); returns True. -/
def base_move (s : GState) (a : WActor) (dx dy : Int) : GState :=
  setActor s { a with x := a.x + dx, y := a.y + dy }

/-- Result of a Python move call: the returned value (none = Python None)
plus the mutated stage. -/
abbrev MoveRes := Option (Option Bool × GState)

abbrev MoveFn := GState → Nat → Nat → Int → Int → MoveRes

/-- The shared Python shape of Box.move and KeyboardPlayer.move once the
target cell is occupied: ask the occupant to move by the same (dx, dy); if
and only if that returned True, relocate (rereading self) and return True;
otherwise fall off the end of the function (Python None). -/
def pushInto (rec : MoveFn) (s1 : GState) (occId selfId : Nat)
    (dx dy : Int) : MoveRes :=
  match rec s1 occId selfId dx dy with
  | none => none
  | some (r, s2) =>
    if r = some true then
      match findActor s2 selfId with
      | none => none
      | some a2 => some (some true, base_move s2 a2 dx dy)
    else some (none, s2)

/-- Box.move and StickyBox.move, parametrized over the recursive move call
(`rec`) and whether the sticky marking of Monster occupants happens
(StickyBox.move sets `stuck` and `stick_with` — and not `stick_position` —
on a Monster occupant before recursing). -/
def boxMoveAux (rec : MoveFn) (s : GState) (a : WActor) (sticky : Bool)
    (dx dy : Int) : MoveRes :=
  let nx := a.x + dx
  let ny := a.y + dy
  if is_in_bounds s nx ny then
    match get_actor s nx ny with
    | some occ =>
      let s1 :=
        if sticky ∧ occ.kind.isMonster then
          setActor s { occ with stuck := true, stickWith := some a.id }
        else s
      pushInto rec s1 occ.id a.id dx dy
    | none => some (some true, base_move s a dx dy)
  else some (some false, s)

/-- KeyboardPlayer.move, parametrized over the recursive move call.  The
branch order follows the Python if/elif chain; note that an occupant that is
a Monster but none of NormalMonster, EzMonster, Flame (an ExplodingMonster)
falls through to the unconditional-relocation else branch. -/
def playerMoveAux (rec : MoveFn) (s : GState) (a : WActor) (dx dy : Int) :
    MoveRes :=
  let nx := a.x + dx
  let ny := a.y + dy
  if is_in_bounds s nx ny then
    match get_actor s nx ny with
    | some occ =>
      if occ.kind.isMonster = false then
        pushInto rec s occ.id a.id dx dy
      else if occ.kind = .normalMonster then
        some (some false, setActor s { a with life := 0 })
      else if occ.kind = .ezMonster then
        let s1 := setActor s { occ with life := 0 }
        match findActor s1 a.id with
        | none => none
        | some a1 => some (some true, base_move s1 a1 dx dy)
      else if occ.kind = .flame then
        some (some false, setActor s { a with life := 0 })
      else some (some true, base_move s a dx dy)
    | none => some (some true, base_move s a dx dy)
  else some (some false, s)

/-- Monster.move (used by NormalMonster, EzMonster, ExplodingMonster).  Only
self-initiated requests proceed; the prospective cell is computed from _dx
and _dy (not from the arguments), bounce flips are committed even when the
move then fails; a StickyBox occupant sticks the monster (recording the box's
position this time) and the call falls off the end (Python None). -/
def monsterMoveAux (s : GState) (a : WActor) (otherId : Nat) (dx dy : Int) :
    MoveRes :=
  if otherId ≠ a.id then some (some false, s)
  else
    let nx := a.x + a.dx
    let ny := a.y + a.dy
    let bx := is_in_bounds_x s nx = false
    let by0 := is_in_bounds_y s ny = false
    let a1 := { a with dx := if bx then -a.dx else a.dx,
                       dy := if by0 then -a.dy else a.dy }
    if bx ∨ by0 then some (some false, setActor s a1)
    else
      if is_in_bounds s nx ny then
        match get_actor s nx ny with
        | none => some (some true, base_move s a dx dy)
        | some occ =>
          if occ.kind = .player then
            some (some false, setActor s { occ with life := 0 })
          else if occ.kind = .stickyBox then
            some (none, setActor s
              { a with stuck := true, stickWith := some occ.id,
                       stickPos := some (occ.x, occ.y) })
          else
            some (some false, setActor s { a with dx := -a.dx, dy := -a.dy })
      else some (some false, base_move s a dx dy)

/-- The polymorphic move request, with fuel bounding the recursion depth of
the push chain (running out of fuel models non-termination).  Wall.move
always refuses; Flame.move is a pass (Python None). -/
def moveActor : Nat → GState → Nat → Nat → Int → Int → MoveRes
  | 0, _, _, _, _, _ => none
  | fuel + 1, s, selfId, otherId, dx, dy =>
    match findActor s selfId with
    | none => none
    | some a =>
      match a.kind with
      | .wall => some (some false, s)
      | .flame => some (none, s)
      | .box => boxMoveAux (moveActor fuel) s a false dx dy
      | .stickyBox => boxMoveAux (moveActor fuel) s a true dx dy
      | .player => playerMoveAux (moveActor fuel) s a dx dy
      | _ => monsterMoveAux s a otherId dx dy

/-- One blocked-cell test of Monster.is_trapped: the cell holds a Box or a
Monster, or is out of bounds. -/
def blockedCell (s : GState) (x y : Int) : Bool :=
  (match get_actor s x y with
   | some b => b.kind.isBox || b.kind.isMonster
   | none => false) || !(is_in_bounds s x y)

/-- The 3x3 block of cells Monster.is_trapped scans (the Python loops include
the monster's own cell). -/
def cells3x3 (x y : Int) : List (Int × Int) :=
  [(x - 1, y - 1), (x - 1, y), (x - 1, y + 1),
   (x, y - 1), (x, y), (x, y + 1),
   (x + 1, y - 1), (x + 1, y), (x + 1, y + 1)]

/-- Monster.is_trapped -/
def is_trapped (s : GState) (a : WActor) : Bool :=
  (cells3x3 a.x a.y).all fun p => blockedCell s p.1 p.2

/-- The 8-neighbour condition the specification states for trappedness
(Moore neighbourhood, the centre cell excluded). -/
def neighbours8Blocked (s : GState) (a : WActor) : Bool :=
  ([(a.x - 1, a.y - 1), (a.x - 1, a.y), (a.x - 1, a.y + 1),
    (a.x, a.y - 1), (a.x, a.y + 1),
    (a.x + 1, a.y - 1), (a.x + 1, a.y), (a.x + 1, a.y + 1)]
    : List (Int × Int)).all fun p => blockedCell s p.1 p.2

/-- Actor.delay: increments the counter modulo the denominator; the actor
acts when the counter wraps to 0.  A zero denominator is Python
ZeroDivisionError. -/
def delayStep (a : WActor) : Option (Bool × WActor) :=
  if a.delayN = 0 then none
  else
    let a1 := { a with delayCount := (a.delayCount + 1) % a.delayN }
    some (a1.delayCount = 0, a1)

/-- Fuel handed to a move request issued from inside a step: the push chain
visits pairwise distinct stage actors, so this always suffices. -/
def moveFuel (s : GState) : Nat :=
  s.stage.length + 2

/-- A fresh Flame object as created by ExplodingMonster.explode. -/
def mkFlame (aid : Nat) (x y : Int) : WActor :=
  { id := aid, kind := .flame, x := x, y := y, life := 10, delayN := 1,
    delayCount := 0, dx := 1, dy := 1, stuck := false, stickWith := none,
    stickPos := none, dead := false, lastEvent := none }

/-- One cell of ExplodingMonster.explode: in bounds, kill a player occupant,
remove whatever occupant remains, then add a Flame there. -/
def explodeCell (s : GState) (p : Int × Int) : Option GState :=
  if is_in_bounds s p.1 p.2 then
    let sA :=
      match get_actor s p.1 p.2 with
      | some o => if o.kind = .player then setActor s { o with life := 0 } else s
      | none => s
    match get_actor sA p.1 p.2 with
    | some o =>
      match remove_actor sA o.id with
      | none => none
      | some sB =>
        some (add_actor { sB with nextId := sB.nextId + 1 }
          (mkFlame sB.nextId p.1 p.2))
    | none =>
      some (add_actor { sA with nextId := sA.nextId + 1 }
        (mkFlame sA.nextId p.1 p.2))
  else some s

/-- ExplodingMonster.explode: the 9 cells in the Python iteration order. -/
def explode (s : GState) (a : WActor) : Option GState :=
  (cells3x3 a.x a.y).foldlM explodeCell s

/-- Base Actor.step (Wall, Box, StickyBox): deregister once dead. -/
def plainStep (s : GState) (a : WActor) : Option GState :=
  if is_dead a then remove_actor s a.id else some s

/-- The tail of Monster.step shared with ExplodingMonster.step: delay gating,
then the self-initiated move with the current _dx, _dy. -/
def monsterTail (s : GState) (aid : Nat) : Option GState :=
  match findActor s aid with
  | none => none
  | some a =>
    match delayStep a with
    | none => none
    | some (fire, a1) =>
      let s1 := setActor s a1
      if fire then
        match moveActor (moveFuel s1) s1 aid aid a1.dx a1.dy with
        | none => none
        | some (_, s2) => some s2
      else some s1

/-- Monster.step (NormalMonster, EzMonster): dead-removal, trapped decay or
life reset, the stuck check (subscripting a None stick_position raises), then
the delayed move. -/
def monsterStep (s : GState) (a : WActor) : Option GState :=
  match (if is_dead a then remove_actor s a.id else some s) with
  | none => none
  | some s1 =>
    let a2 := if is_trapped s1 a then { a with life := a.life - 1 }
              else { a with life := 5 }
    let s2 := setActor s1 a2
    if a2.stuck then
      match a2.stickPos with
      | none => none
      | some p =>
        if ((get_actor s2 p.1 p.2).map WActor.id) = a2.stickWith then some s2
        else
          monsterTail (setActor s2
            { a2 with stickWith := none, stuck := false, stickPos := none })
            a2.id
    else monsterTail s2 a2.id

/-- ExplodingMonster.step: extra decay when trapped, the unconditional fuse
decrement, removal plus explosion exactly when life lands on 0, then the
delayed move (which still runs for the exploded object). -/
def emStep (s : GState) (a : WActor) : Option GState :=
  let a1 := if is_trapped s a then { a with life := a.life - 1 } else a
  let a2 := { a1 with life := a1.life - 1 }
  let s2 := setActor s a2
  if is_dead a2 then
    match remove_actor s2 a2.id with
    | none => none
    | some s3 =>
      match explode s3 a2 with
      | none => none
      | some s4 => monsterTail s4 a2.id
  else monsterTail s2 a2.id

/-- Flame.step: burn down one, self-remove at zero. -/
def flameStep (s : GState) (a : WActor) : Option GState :=
  let a1 := { a with life := a.life - 1 }
  let s1 := setActor s a1
  if is_dead a1 then remove_actor s1 a1.id else some s1

/-- KeyboardPlayer.step: consume the single-slot event buffer (issuing a
self-directed move request when it decodes), then the death check with its
one-time flagging, removing the player from the stage when dead. -/
def kbStep (s : GState) (a : WActor) : Option GState :=
  let afterEvent : Option GState :=
    match a.lastEvent with
    | none => some s
    | some ev =>
      match ev with
      | none => some (setActor s { a with lastEvent := none })
      | some d =>
        match moveActor (moveFuel s) s a.id a.id d.1 d.2 with
        | none => none
        | some (_, s1) =>
          match findActor s1 a.id with
          | none => none
          | some a1 => some (setActor s1 { a1 with lastEvent := none })
  match afterEvent with
  | none => none
  | some s1 =>
    match findActor s1 a.id with
    | none => none
    | some a1 =>
      let r := kb_is_dead a1
      let s2 := setActor s1 r.2
      if r.1 then remove_actor s2 a1.id else some s2

/-- Dispatch one actor's per-tick step. -/
def actorStep (s : GState) (aid : Nat) : Option GState :=
  match findActor s aid with
  | none => none
  | some a =>
    match a.kind with
    | .wall => plainStep s a
    | .box => plainStep s a
    | .stickyBox => plainStep s a
    | .player => kbStep s a
    | .normalMonster => monsterStep s a
    | .ezMonster => monsterStep s a
    | .explodingMonster => emStep s a
    | .flame => flameStep s a

/-- Stage.step's Python for-loop: an index walking the live, mutable actor
list (removal of an earlier or current entry shifts later entries one slot
left under the index; appended entries are visited). -/
def stageStepFrom : Nat → Nat → GState → Option GState
  | 0, _, _ => none
  | fuel + 1, i, s =>
    match s.stage.get? i with
    | none => some s
    | some aid =>
      match actorStep s aid with
      | none => none
      | some s1 => stageStepFrom fuel (i + 1) s1

/-- Stage.step. -/
def stageStep (s : GState) : Option GState :=
  stageStepFrom (s.stage.length * 16 + 16) 0 s

/-- Iterated ticks. -/
def stageSteps : Nat → GState → Option GState
  | 0, s => some s
  | n + 1, s =>
    match stageStep s with
    | none => none
    | some s1 => stageSteps n s1

/-- A freshly constructed actor of the given kind, as the ww.py constructors
build it: life 5 (overridden by ExplodingMonster and Flame), delay counter 0,
direction (1, 1), no stuck state, empty event buffer. -/
def mkA (aid : Nat) (k : Kind) (x y : Int) (life : Int) (delayN : Nat) :
    WActor :=
  { id := aid, kind := k, x := x, y := y, life := life, delayN := delayN,
    delayCount := 0, dx := 1, dy := 1, stuck := false, stickWith := none,
    stickPos := none, dead := false, lastEvent := none }

/-- A stage populated with the given actors in registration order. -/
def mkStage (w h : Int) (l : List WActor) : GState :=
  { store := l, stage := l.map WActor.id, width := w, height := h,
    nextId := 1000 }

/-- The life counter of an actor object after an optional-state operation. -/
def lifeAfter (r : Option GState) (aid : Nat) : Option Int :=
  r.bind fun s => (findActor s aid).map WActor.life

/-- The position of an actor object after an optional-state operation. -/
def posAfter (r : Option GState) (aid : Nat) : Option (Int × Int) :=
  r.bind fun s => (findActor s aid).map fun a => (a.x, a.y)

/-- Whether an actor is in the stage's collection after an optional-state
operation. -/
def onStageAfter (r : Option GState) (aid : Nat) : Bool :=
  match r with
  | some s => s.stage.contains aid
  | none => false

/-- The state component of a move result. -/
def moveState (r : MoveRes) : Option GState :=
  r.map fun p => p.2

/-- The returned Python value of a move result. -/
def moveVal (r : MoveRes) : Option (Option Bool) :=
  r.map fun p => p.1

/-- The player's dead flag after an optional-state operation. -/
def deadFlagAfter (r : Option GState) (aid : Nat) : Option Bool :=
  r.bind fun s => (findActor s aid).map WActor.dead

/-- Whether the actor is trapped (in the ww.py sense) after an
optional-state operation. -/
def trappedAfter (r : Option GState) (aid : Nat) : Bool :=
  match r with
  | some s =>
    match findActor s aid with
    | some a => is_trapped s a
    | none => false
  | none => false

/-- Scenario for Stage.step and removal: a dead NormalMonster registered
before a Flame. -/
def c1Stage : GState :=
  mkStage 20 20 [mkA 1 .normalMonster 0 0 0 5, mkA 2 .flame 10 10 10 1]

/-- Scenario: the player at (5,5) next to an EzMonster at (6,5). -/
def c3Stage : GState :=
  mkStage 20 20 [mkA 0 .player 5 5 5 5, mkA 1 .ezMonster 6 5 5 5]

/-- Scenario: a lone ExplodingMonster built with fuseOffset 20, so with
life 10 + 20 = 30 (its constructor hardcodes delay 5). -/
def c4Stage : GState :=
  mkStage 20 20 [mkA 7 .explodingMonster 5 5 30 5]

/-- Scenario: the player pushes the StickyBox at (4,5) right, into the
NormalMonster at (5,5). -/
def c5Stage : GState :=
  mkStage 20 20
    [mkA 0 .player 3 5 5 5, mkA 1 .stickyBox 4 5 5 5, mkA 2 .normalMonster 5 5 5 5]

/-- Scenario: a dead player on the stage. -/
def c6Stage : GState :=
  mkStage 20 20 [mkA 0 .player 5 5 0 5, mkA 1 .box 1 1 5 5]

/-- Scenario: a NormalMonster with life 0 in the grid corner, its three
in-bounds neighbours all boxes (so all 8 neighbours blocked). -/
def c7Stage : GState :=
  mkStage 20 20
    [mkA 1 .normalMonster 0 0 0 5, mkA 2 .box 1 0 5 5, mkA 3 .box 1 1 5 5,
     mkA 4 .box 0 1 5 5]

/-- Scenario: an alive NormalMonster with life 3 in the same blocked
corner. -/
def c7AliveStage : GState :=
  mkStage 20 20
    [mkA 1 .normalMonster 0 0 3 5, mkA 2 .box 1 0 5 5, mkA 3 .box 1 1 5 5,
     mkA 4 .box 0 1 5 5]

/-- Scenario: an ExplodingMonster with life 1 in the blocked corner. -/
def c8Stage : GState :=
  mkStage 20 20
    [mkA 1 .explodingMonster 0 0 1 5, mkA 2 .box 1 0 5 5, mkA 3 .box 1 1 5 5,
     mkA 4 .box 0 1 5 5]

/-- Scenario: the player pushes the box at (5,5) right into the wall at
(6,5). -/
def c9Stage : GState :=
  mkStage 20 20 [mkA 0 .player 4 5 5 5, mkA 1 .box 5 5 5 5, mkA 2 .wall 6 5 5 5]

/-- Scenario: the player at (5,5) next to an ExplodingMonster at (6,5). -/
def c10Stage : GState :=
  mkStage 20 20 [mkA 0 .player 5 5 5 5, mkA 1 .explodingMonster 6 5 30 5]

/-- Scenario: a chain of two boxes ending at a wall, pushed from outside by
the player. -/
def c2WallStage : GState :=
  mkStage 20 20
    [mkA 0 .player 4 5 5 5, mkA 1 .box 5 5 5 5, mkA 2 .box 6 5 5 5,
     mkA 3 .wall 7 5 5 5]

/-- Scenario: a chain of two boxes with free space behind, pushed by the
player. -/
def c2OpenStage : GState :=
  mkStage 20 20
    [mkA 0 .player 4 5 5 5, mkA 1 .box 5 5 5 5, mkA 2 .box 6 5 5 5]

/-- The position of the actor object with the given id. -/
def posOfId (s : GState) (aid : Nat) : Option (Int × Int) :=
  (findActor s aid).map fun a => (a.x, a.y)

/-- The stage, grid dimensions, id counter and the id sequence of the object
store are unchanged (move requests mutate actor objects but never the
stage's collection). -/
def SameFrame (s t : GState) : Prop :=
  t.stage = s.stage ∧ t.width = s.width ∧ t.height = s.height ∧
  t.nextId = s.nextId ∧ t.store.map WActor.id = s.store.map WActor.id

/-- No actor object changed its position between the two states. -/
def PosSame (s t : GState) : Prop :=
  ∀ bid b b', findActor s bid = some b → findActor t bid = some b' →
    b'.x = b.x ∧ b'.y = b.y

/-- `b` lies on the forward ray of cells a push chain starting at `a0` in
direction (dx, dy) can visit. -/
def OnRay (a0 : WActor) (dx dy : Int) (b : WActor) : Prop :=
  ∃ k : Nat, b.x = a0.x + (k : Int) * dx ∧ b.y = a0.y + (k : Int) * dy

/-- Every actor object either kept its position or advanced by exactly
(dx, dy), and only actors on the push chain's forward ray advanced. -/
def PosEvolves (s t : GState) (a0 : WActor) (dx dy : Int) : Prop :=
  ∀ bid b b', findActor s bid = some b → findActor t bid = some b' →
    (b'.x = b.x ∧ b'.y = b.y) ∨
    (b'.x = b.x + dx ∧ b'.y = b.y + dy ∧ OnRay a0 dx dy b)

/-- The inductive invariant of the recursive move protocol. -/
def MoveProp (rec : MoveFn) : Prop :=
  ∀ s selfId otherId dx dy r s' a0,
    rec s selfId otherId dx dy = some (r, s') →
    findActor s selfId = some a0 →
    SameFrame s s' ∧ PosEvolves s s' a0 dx dy ∧
    (r = some true → ∀ a', findActor s' selfId = some a' →
      a'.x = a0.x + dx ∧ a'.y = a0.y + dy)

/-- At most one stage actor per cell, as a computable check over the stage
list. -/
def noOverlapB (s : GState) : Bool :=
  s.stage.all fun aid => s.stage.all fun bid =>
    aid == bid || decide (posOfId s aid ≠ posOfId s bid) ||
      decide (posOfId s aid = none)

/-- The state after StickyBox.move's marking of a Monster occupant (the
identity when the mover is a plain Box or the occupant is not a Monster). -/
def markSticky (s : GState) (a0 occ : WActor) : GState :=
  if a0.kind = Kind.stickyBox ∧ occ.kind.isMonster = true then
    setActor s { occ with stuck := true, stickWith := some a0.id }
  else s

/-- A push chain: boxes with the listed ids at consecutive in-bounds cells
from (x, y) in direction (dx, dy), terminated by a Wall in the next
in-bounds cell. -/
def wallChainB (s : GState) (dx dy : Int) : List Nat → Int → Int → Bool
  | [], x, y =>
    is_in_bounds s x y &&
      ((get_actor s x y).map WActor.kind == some Kind.wall)
  | bid :: rest, x, y =>
    is_in_bounds s x y &&
      ((get_actor s x y).map WActor.id == some bid) &&
      ((get_actor s x y).map fun b => b.kind.isBox) == some true &&
      wallChainB s dx dy rest (x + dx) (y + dy)

/-! ### Store and stage lemmas -/

theorem lookupA_id {l : List WActor} {aid : Nat} {b : WActor}
    (h : lookupA l aid = some b) : b.id = aid := by
  induction l with
  | nil => simp [lookupA] at h
  | cons c cs ih =>
    rw [lookupA] at h
    by_cases hc : c.id = aid
    · rw [if_pos hc] at h
      cases h
      exact hc
    · rw [if_neg hc] at h
      exact ih h

theorem findActor_id {s : GState} {aid : Nat} {b : WActor}
    (h : findActor s aid = some b) : b.id = aid :=
  lookupA_id h

theorem find_replace (l : List WActor) (a : WActor) (bid : Nat) :
    lookupA (l.map fun b => if b.id = a.id then a else b) bid
      = if bid = a.id then
          (if (lookupA l a.id).isSome then some a else none)
        else lookupA l bid := by
  induction l with
  | nil =>
    by_cases hb : bid = a.id <;> simp [lookupA, hb]
  | cons c cs ih =>
    by_cases hc : c.id = a.id <;> by_cases hb : bid = a.id
    · subst hb
      simp [lookupA, hc]
    · have h1 : ¬a.id = bid := fun h => hb h.symm
      have h2 : ¬c.id = bid := fun h => hb (hc.symm.trans h).symm
      simp [lookupA, hc, hb, h1, h2, ih]
    · subst hb
      simp [lookupA, hc, ih]
    · by_cases hp : c.id = bid
      · simp [lookupA, hc, hb, hp]
      · simp [lookupA, hc, hb, hp, ih]

theorem findActor_setActor (s : GState) (a : WActor) (bid : Nat) :
    findActor (setActor s a) bid =
      if bid = a.id then
        (if (findActor s a.id).isSome then some a else none)
      else findActor s bid :=
  find_replace s.store a bid

theorem setActor_stage (s : GState) (a : WActor) :
    (setActor s a).stage = s.stage := rfl

theorem setActor_frame (s : GState) (a : WActor) : SameFrame s (setActor s a) := by
  refine ⟨rfl, rfl, rfl, rfl, ?_⟩
  show (s.store.map fun b => if b.id = a.id then a else b).map WActor.id
    = s.store.map WActor.id
  rw [List.map_map]
  apply List.map_congr_left
  intro b _
  by_cases hb : b.id = a.id <;> simp [hb]

theorem sameFrame_refl (s : GState) : SameFrame s s :=
  ⟨rfl, rfl, rfl, rfl, rfl⟩

theorem sameFrame_trans {s t u : GState} (h1 : SameFrame s t)
    (h2 : SameFrame t u) : SameFrame s u := by
  obtain ⟨a1, b1, c1, d1, e1⟩ := h1
  obtain ⟨a2, b2, c2, d2, e2⟩ := h2
  exact ⟨a2.trans a1, b2.trans b1, c2.trans c1, d2.trans d1, e2.trans e1⟩

theorem lookupA_isSome_iff {l : List WActor} {aid : Nat} :
    (lookupA l aid).isSome ↔ aid ∈ l.map WActor.id := by
  induction l with
  | nil => simp [lookupA]
  | cons c cs ih =>
    rw [lookupA]
    by_cases hc : c.id = aid
    · simp [hc]
    · simp only [if_neg hc, List.map_cons, List.mem_cons, ih]
      constructor
      · exact Or.inr
      · rintro (h | h)
        · exact absurd h.symm hc
        · exact h

theorem findActor_isSome_of_frame {s t : GState} (h : SameFrame s t)
    {aid : Nat} (hs : (findActor s aid).isSome) :
    (findActor t aid).isSome := by
  unfold findActor at hs ⊢
  rw [lookupA_isSome_iff] at hs ⊢
  rw [h.2.2.2.2]
  exact hs

theorem firstAt_spec {l : List WActor} {x y : Int} {b : WActor}
    (h : firstAt l x y = some b) : b ∈ l ∧ b.x = x ∧ b.y = y := by
  induction l with
  | nil => simp [firstAt] at h
  | cons c cs ih =>
    rw [firstAt] at h
    by_cases hc : c.x = x ∧ c.y = y
    · rw [if_pos hc] at h
      cases h
      exact ⟨List.mem_cons_self _ _, hc⟩
    · rw [if_neg hc] at h
      obtain ⟨hm, hxy⟩ := ih h
      exact ⟨List.mem_cons_of_mem _ hm, hxy⟩

theorem firstAt_none {l : List WActor} {x y : Int}
    (h : firstAt l x y = none) {b : WActor} (hb : b ∈ l) :
    ¬(b.x = x ∧ b.y = y) := by
  induction l with
  | nil => simp at hb
  | cons c cs ih =>
    rw [firstAt] at h
    by_cases hc : c.x = x ∧ c.y = y
    · rw [if_pos hc] at h
      cases h
    · rw [if_neg hc] at h
      rcases List.mem_cons.mp hb with hb | hb
      · exact hb ▸ hc
      · exact ih h hb

theorem get_actor_spec {s : GState} {x y : Int} {b : WActor}
    (h : get_actor s x y = some b) :
    b.x = x ∧ b.y = y ∧ b.id ∈ s.stage ∧ findActor s b.id = some b := by
  obtain ⟨hm, hx, hy⟩ := firstAt_spec h
  rw [List.mem_filterMap] at hm
  obtain ⟨aid, ha, hf⟩ := hm
  have hid := findActor_id hf
  exact ⟨hx, hy, hid ▸ ha, hid ▸ hf⟩

theorem get_actor_none {s : GState} {x y : Int}
    (h : get_actor s x y = none) {aid : Nat} {b : WActor}
    (ha : aid ∈ s.stage) (hf : findActor s aid = some b) :
    ¬(b.x = x ∧ b.y = y) := by
  exact firstAt_none h (List.mem_filterMap.mpr ⟨aid, ha, hf⟩)

theorem posSame_refl (s : GState) : PosSame s s := by
  intro bid b b' hb hb'
  rw [hb] at hb'
  cases hb'
  exact ⟨rfl, rfl⟩

theorem posEvolves_of_posSame {s t : GState} (h : PosSame s t)
    (a0 : WActor) (dx dy : Int) : PosEvolves s t a0 dx dy :=
  fun bid b b' hb hb' => Or.inl (h bid b b' hb hb')

theorem posSame_setActor {s : GState} {c c0 : WActor}
    (hc0 : findActor s c.id = some c0) (hx : c.x = c0.x) (hy : c.y = c0.y) :
    PosSame s (setActor s c) := by
  intro bid b b' hb hb'
  rw [findActor_setActor] at hb'
  by_cases hbid : bid = c.id
  · rw [if_pos hbid, if_pos (by rw [hc0]; rfl)] at hb'
    cases hb'
    rw [hbid, hc0] at hb
    cases hb
    exact ⟨hx, hy⟩
  · rw [if_neg hbid, hb] at hb'
    cases hb'
    exact ⟨rfl, rfl⟩

theorem findActor_base_move_self {s : GState} {c : WActor} {cid : Nat}
    (hc : findActor s cid = some c) (hcid : c.id = cid) (dx dy : Int) :
    findActor (base_move s c dx dy) cid
      = some { c with x := c.x + dx, y := c.y + dy } := by
  subst hcid
  unfold base_move
  rw [findActor_setActor]
  rw [if_pos rfl, if_pos (by rw [hc]; rfl)]

theorem findActor_base_move_ne {s : GState} {c : WActor} {bid : Nat}
    (h : ¬bid = c.id) (dx dy : Int) :
    findActor (base_move s c dx dy) bid = findActor s bid := by
  unfold base_move
  rw [findActor_setActor, if_neg h]

theorem posEvolves_relocate {s : GState} {a0 c : WActor} {cid : Nat}
    {dx dy : Int}
    (hc : findActor s cid = some c) (hcid : c.id = cid)
    (hray : OnRay a0 dx dy c) :
    PosEvolves s (base_move s c dx dy) a0 dx dy := by
  subst hcid
  intro bid b b' hb hb'
  by_cases hbid : bid = c.id
  · subst hbid
    rw [hb] at hc
    cases hc
    rw [findActor_base_move_self hb rfl dx dy] at hb'
    cases hb'
    exact Or.inr ⟨rfl, rfl, hray⟩
  · rw [findActor_base_move_ne hbid, hb] at hb'
    cases hb'
    exact Or.inl ⟨rfl, rfl⟩

theorem ray_collapse {x0 x1 d : Int} {k : Nat} (h1 : x1 = x0 + d + (k : Int) * d)
    (h2 : x1 = x0) : d = 0 := by
  have h4 : d + (k : Int) * d = 0 := by linarith
  have h5 : ((k : Int) + 1) * d = 0 := by ring_nf; ring_nf at h4; linarith
  rcases mul_eq_zero.mp h5 with h6 | h6
  · exfalso
    omega
  · exact h6

theorem pushInto_ok {rec : MoveFn} (hrec : MoveProp rec)
    {s s1 : GState} {a0 occ1 : WActor} {occId selfId : Nat} {dx dy : Int}
    {r : Option Bool} {sF : GState}
    (hself : findActor s selfId = some a0)
    (hfr1 : SameFrame s s1) (hps1 : PosSame s s1)
    (hocc : findActor s1 occId = some occ1)
    (hoccx : occ1.x = a0.x + dx) (hoccy : occ1.y = a0.y + dy)
    (hrun : pushInto rec s1 occId selfId dx dy = some (r, sF)) :
    SameFrame s sF ∧ PosEvolves s sF a0 dx dy ∧
    (r = some true → ∀ a', findActor sF selfId = some a' →
      a'.x = a0.x + dx ∧ a'.y = a0.y + dy) := by
  unfold pushInto at hrun
  cases hrec2 : rec s1 occId selfId dx dy with
  | none =>
    rw [hrec2] at hrun
    cases hrun
  | some p =>
    obtain ⟨r2, s2⟩ := p
    rw [hrec2] at hrun
    dsimp only at hrun
    obtain ⟨hfr2, hev2, hmv2⟩ :=
      hrec s1 occId selfId dx dy r2 s2 occ1 hrec2 hocc
    have hself1some : (findActor s1 selfId).isSome :=
      findActor_isSome_of_frame hfr1 (by rw [hself]; rfl)
    obtain ⟨a1, ha1⟩ := Option.isSome_iff_exists.mp hself1some
    have ha1pos : a1.x = a0.x ∧ a1.y = a0.y := hps1 selfId a0 a1 hself ha1
    by_cases hr2 : r2 = some true
    · rw [if_pos hr2] at hrun
      have hs2some : (findActor s2 selfId).isSome :=
        findActor_isSome_of_frame hfr2 (by rw [ha1]; rfl)
      obtain ⟨a2, ha2⟩ := Option.isSome_iff_exists.mp hs2some
      rw [ha2] at hrun
      have hinj := Option.some.inj hrun
      have hrEq : r = some true := (Prod.mk.injEq _ _ _ _ ▸ hinj).1.symm
      have hsF : sF = base_move s2 a2 dx dy :=
        ((Prod.mk.injEq _ _ _ _ ▸ hinj).2).symm
      have ha2id : a2.id = selfId := findActor_id ha2
      have ha2pos : a2.x = a0.x ∧ a2.y = a0.y := by
        rcases hev2 selfId a1 a2 ha1 ha2 with ⟨h1, h2⟩ | ⟨h1, h2, k, hk1, hk2⟩
        · exact ⟨h1.trans ha1pos.1, h2.trans ha1pos.2⟩
        · have hdx : dx = 0 :=
            ray_collapse (by rw [hk1, hoccx]) ha1pos.1
          have hdy : dy = 0 :=
            ray_collapse (by rw [hk2, hoccy]) ha1pos.2
          rw [hdx] at h1
          rw [hdy] at h2
          simp only [add_zero] at h1 h2
          exact ⟨h1.trans ha1pos.1, h2.trans ha1pos.2⟩
      subst hsF
      refine ⟨?_, ?_, ?_⟩
      · exact sameFrame_trans (sameFrame_trans hfr1 hfr2)
          (setActor_frame s2 _)
      · intro bid b b' hb hb'
        by_cases hbid : bid = selfId
        · subst hbid
          rw [hself] at hb
          cases hb
          rw [findActor_base_move_self ha2 ha2id dx dy] at hb'
          cases hb'
          exact Or.inr ⟨by rw [ha2pos.1], by rw [ha2pos.2],
            0, by simp, by simp⟩
        · rw [findActor_base_move_ne (by rw [ha2id]; exact hbid) dx dy] at hb'
          have hb1some : (findActor s1 bid).isSome :=
            findActor_isSome_of_frame hfr1 (by rw [hb]; rfl)
          obtain ⟨b1, hb1⟩ := Option.isSome_iff_exists.mp hb1some
          have hbp := hps1 bid b b1 hb hb1
          rcases hev2 bid b1 b' hb1 hb' with ⟨h1, h2⟩ | ⟨h1, h2, k, hk1, hk2⟩
          · exact Or.inl ⟨h1.trans hbp.1, h2.trans hbp.2⟩
          · refine Or.inr ⟨by rw [h1, hbp.1], by rw [h2, hbp.2],
              k + 1, ?_, ?_⟩
            · rw [← hbp.1, hk1, hoccx]
              push_cast
              ring
            · rw [← hbp.2, hk2, hoccy]
              push_cast
              ring
      · intro _ a' ha'
        rw [findActor_base_move_self ha2 ha2id dx dy] at ha'
        cases ha'
        exact ⟨by rw [ha2pos.1], by rw [ha2pos.2]⟩
    · rw [if_neg hr2] at hrun
      have hinj := Option.some.inj hrun
      have hrEq : r = none := (Prod.mk.injEq _ _ _ _ ▸ hinj).1.symm
      have hsF : sF = s2 := ((Prod.mk.injEq _ _ _ _ ▸ hinj).2).symm
      subst hsF
      refine ⟨sameFrame_trans hfr1 hfr2, ?_, ?_⟩
      · intro bid b b' hb hb'
        have hb1some : (findActor s1 bid).isSome :=
          findActor_isSome_of_frame hfr1 (by rw [hb]; rfl)
        obtain ⟨b1, hb1⟩ := Option.isSome_iff_exists.mp hb1some
        have hbp := hps1 bid b b1 hb hb1
        rcases hev2 bid b1 b' hb1 hb' with ⟨h1, h2⟩ | ⟨h1, h2, k, hk1, hk2⟩
        · exact Or.inl ⟨h1.trans hbp.1, h2.trans hbp.2⟩
        · refine Or.inr ⟨by rw [h1, hbp.1], by rw [h2, hbp.2],
            k + 1, ?_, ?_⟩
          · rw [← hbp.1, hk1, hoccx]
            push_cast
            ring
          · rw [← hbp.2, hk2, hoccy]
            push_cast
            ring
      · intro hcontra
        rw [hrEq] at hcontra
        cases hcontra

theorem moveRes_inj {v : Option Bool} {t : GState} {r : Option Bool}
    {sF : GState} (h : (some (v, t) : MoveRes) = some (r, sF)) :
    r = v ∧ sF = t := by
  have h1 := Option.some.inj h
  exact ⟨(congrArg Prod.fst h1).symm, (congrArg Prod.snd h1).symm⟩

theorem posEvolves_comp {s s1 s2 : GState} {a0 : WActor} {dx dy : Int}
    (hfr : SameFrame s s1) (hps : PosSame s s1)
    (hev : PosEvolves s1 s2 a0 dx dy) : PosEvolves s s2 a0 dx dy := by
  intro bid b b' hb hb'
  have hb1some : (findActor s1 bid).isSome :=
    findActor_isSome_of_frame hfr (by rw [hb]; rfl)
  obtain ⟨b1, hb1⟩ := Option.isSome_iff_exists.mp hb1some
  have hbp := hps bid b b1 hb hb1
  rcases hev bid b1 b' hb1 hb' with ⟨h1, h2⟩ | ⟨h1, h2, k, hk1, hk2⟩
  · exact Or.inl ⟨h1.trans hbp.1, h2.trans hbp.2⟩
  · exact Or.inr ⟨by rw [h1, hbp.1], by rw [h2, hbp.2],
      k, by rw [← hbp.1, hk1], by rw [← hbp.2, hk2]⟩

theorem onRay_self (a0 : WActor) (dx dy : Int) : OnRay a0 dx dy a0 :=
  ⟨0, by simp, by simp⟩

theorem monsterMoveAux_ok {s : GState} {a0 : WActor} {otherId : Nat}
    {dx dy : Int} {r : Option Bool} {sF : GState}
    (hself : findActor s a0.id = some a0)
    (hrun : monsterMoveAux s a0 otherId dx dy = some (r, sF)) :
    SameFrame s sF ∧ PosEvolves s sF a0 dx dy ∧
    (r = some true → ∀ a', findActor sF a0.id = some a' →
      a'.x = a0.x + dx ∧ a'.y = a0.y + dy) := by
  unfold monsterMoveAux at hrun
  dsimp only at hrun
  by_cases hot : otherId ≠ a0.id
  · rw [if_pos hot] at hrun
    obtain ⟨hr, hsF⟩ := moveRes_inj hrun
    rw [hr, hsF]
    exact ⟨sameFrame_refl s, posEvolves_of_posSame (posSame_refl s) a0 dx dy,
      fun h => by simp at h⟩
  · rw [if_neg hot] at hrun
    by_cases hbounce : is_in_bounds_x s (a0.x + a0.dx) = false ∨
        is_in_bounds_y s (a0.y + a0.dy) = false
    · rw [if_pos hbounce] at hrun
      obtain ⟨hr, hsF⟩ := moveRes_inj hrun
      rw [hr, hsF]
      refine ⟨setActor_frame s _, posEvolves_of_posSame ?_ a0 dx dy,
        fun h => by simp at h⟩
      exact posSame_setActor hself rfl rfl
    · rw [if_neg hbounce] at hrun
      by_cases hib : is_in_bounds s (a0.x + a0.dx) (a0.y + a0.dy) = true
      · rw [if_pos hib] at hrun
        cases hga : get_actor s (a0.x + a0.dx) (a0.y + a0.dy) with
        | none =>
          rw [hga] at hrun
          dsimp only at hrun
          obtain ⟨hr, hsF⟩ := moveRes_inj hrun
          rw [hr, hsF]
          refine ⟨setActor_frame s _,
            posEvolves_relocate hself rfl (onRay_self a0 dx dy), ?_⟩
          intro _ a' ha'
          rw [findActor_base_move_self hself rfl dx dy] at ha'
          cases ha'
          exact ⟨rfl, rfl⟩
        | some occ =>
          rw [hga] at hrun
          dsimp only at hrun
          obtain ⟨_, _, _, hfocc⟩ := get_actor_spec hga
          by_cases hk1 : occ.kind = Kind.player
          · rw [if_pos hk1] at hrun
            obtain ⟨hr, hsF⟩ := moveRes_inj hrun
            rw [hr, hsF]
            refine ⟨setActor_frame s _, posEvolves_of_posSame ?_ a0 dx dy,
              fun h => by simp at h⟩
            exact posSame_setActor hfocc rfl rfl
          · rw [if_neg hk1] at hrun
            by_cases hk2 : occ.kind = Kind.stickyBox
            · rw [if_pos hk2] at hrun
              obtain ⟨hr, hsF⟩ := moveRes_inj hrun
              rw [hr, hsF]
              refine ⟨setActor_frame s _, posEvolves_of_posSame ?_ a0 dx dy,
                fun h => by simp at h⟩
              exact posSame_setActor hself rfl rfl
            · rw [if_neg hk2] at hrun
              obtain ⟨hr, hsF⟩ := moveRes_inj hrun
              rw [hr, hsF]
              refine ⟨setActor_frame s _, posEvolves_of_posSame ?_ a0 dx dy,
                fun h => by simp at h⟩
              exact posSame_setActor hself rfl rfl
      · rw [if_neg hib] at hrun
        obtain ⟨hr, hsF⟩ := moveRes_inj hrun
        rw [hr, hsF]
        exact ⟨setActor_frame s _,
          posEvolves_relocate hself rfl (onRay_self a0 dx dy),
          fun h => by simp at h⟩

theorem boxMoveAux_ok {rec : MoveFn} (hrec : MoveProp rec) {s : GState}
    {a0 : WActor} {sticky : Bool} {dx dy : Int} {r : Option Bool}
    {sF : GState}
    (hself : findActor s a0.id = some a0)
    (hrun : boxMoveAux rec s a0 sticky dx dy = some (r, sF)) :
    SameFrame s sF ∧ PosEvolves s sF a0 dx dy ∧
    (r = some true → ∀ a', findActor sF a0.id = some a' →
      a'.x = a0.x + dx ∧ a'.y = a0.y + dy) := by
  unfold boxMoveAux at hrun
  dsimp only at hrun
  by_cases hib : is_in_bounds s (a0.x + dx) (a0.y + dy) = true
  · rw [if_pos hib] at hrun
    cases hga : get_actor s (a0.x + dx) (a0.y + dy) with
    | none =>
      rw [hga] at hrun
      dsimp only at hrun
      obtain ⟨hr, hsF⟩ := moveRes_inj hrun
      rw [hr, hsF]
      refine ⟨setActor_frame s _,
        posEvolves_relocate hself rfl (onRay_self a0 dx dy), ?_⟩
      intro _ a' ha'
      rw [findActor_base_move_self hself rfl dx dy] at ha'
      cases ha'
      exact ⟨rfl, rfl⟩
    | some occ =>
      rw [hga] at hrun
      dsimp only at hrun
      obtain ⟨hoccx, hoccy, _, hfocc⟩ := get_actor_spec hga
      by_cases hst : sticky = true ∧ occ.kind.isMonster = true
      · rw [if_pos hst] at hrun
        have hocc1 : findActor
            (setActor s { occ with stuck := true, stickWith := some a0.id })
            occ.id = some { occ with stuck := true, stickWith := some a0.id } := by
          rw [findActor_setActor, if_pos rfl,
            if_pos (show (findActor s occ.id).isSome = true by rw [hfocc]; rfl)]
        refine pushInto_ok hrec hself (setActor_frame s _) ?_ hocc1 hoccx
          hoccy hrun
        exact posSame_setActor hfocc rfl rfl
      · rw [if_neg hst] at hrun
        exact pushInto_ok hrec hself (sameFrame_refl s) (posSame_refl s)
          hfocc hoccx hoccy hrun
  · rw [if_neg hib] at hrun
    obtain ⟨hr, hsF⟩ := moveRes_inj hrun
    rw [hr, hsF]
    exact ⟨sameFrame_refl s, posEvolves_of_posSame (posSame_refl s) a0 dx dy,
      fun h => by simp at h⟩

theorem playerMoveAux_ok {rec : MoveFn} (hrec : MoveProp rec) {s : GState}
    {a0 : WActor} {dx dy : Int} {r : Option Bool} {sF : GState}
    (hself : findActor s a0.id = some a0)
    (hrun : playerMoveAux rec s a0 dx dy = some (r, sF)) :
    SameFrame s sF ∧ PosEvolves s sF a0 dx dy ∧
    (r = some true → ∀ a', findActor sF a0.id = some a' →
      a'.x = a0.x + dx ∧ a'.y = a0.y + dy) := by
  unfold playerMoveAux at hrun
  dsimp only at hrun
  by_cases hib : is_in_bounds s (a0.x + dx) (a0.y + dy) = true
  · rw [if_pos hib] at hrun
    cases hga : get_actor s (a0.x + dx) (a0.y + dy) with
    | none =>
      rw [hga] at hrun
      dsimp only at hrun
      obtain ⟨hr, hsF⟩ := moveRes_inj hrun
      rw [hr, hsF]
      refine ⟨setActor_frame s _,
        posEvolves_relocate hself rfl (onRay_self a0 dx dy), ?_⟩
      intro _ a' ha'
      rw [findActor_base_move_self hself rfl dx dy] at ha'
      cases ha'
      exact ⟨rfl, rfl⟩
    | some occ =>
      rw [hga] at hrun
      dsimp only at hrun
      obtain ⟨hoccx, hoccy, _, hfocc⟩ := get_actor_spec hga
      by_cases hm : occ.kind.isMonster = false
      · rw [if_pos hm] at hrun
        exact pushInto_ok hrec hself (sameFrame_refl s) (posSame_refl s)
          hfocc hoccx hoccy hrun
      · rw [if_neg hm] at hrun
        by_cases hk1 : occ.kind = Kind.normalMonster
        · rw [if_pos hk1] at hrun
          obtain ⟨hr, hsF⟩ := moveRes_inj hrun
          rw [hr, hsF]
          refine ⟨setActor_frame s _, posEvolves_of_posSame ?_ a0 dx dy,
            fun h => by simp at h⟩
          exact posSame_setActor hself rfl rfl
        · rw [if_neg hk1] at hrun
          by_cases hk2 : occ.kind = Kind.ezMonster
          · rw [if_pos hk2] at hrun
            rw [findActor_setActor] at hrun
            have hocc1 : findActor (setActor s { occ with life := 0 })
                occ.id = some { occ with life := 0 } := by
              rw [findActor_setActor, if_pos rfl, if_pos (by rw [hfocc]; rfl)]
            have hps1 : PosSame s (setActor s { occ with life := 0 }) :=
              posSame_setActor hfocc rfl rfl
            by_cases hid : a0.id = occ.id
            · have hocceq : occ = a0 := by
                rw [hid, hfocc] at hself
                exact Option.some.inj hself
              rw [if_pos hid,
                if_pos (show (findActor s occ.id).isSome = true by
                  rw [hfocc]; rfl)] at hrun
              dsimp only at hrun
              obtain ⟨hr, hsF⟩ := moveRes_inj hrun
              rw [hr, hsF]
              refine ⟨sameFrame_trans (setActor_frame s _) (setActor_frame _ _),
                ?_, ?_⟩
              · refine posEvolves_comp (setActor_frame s _) hps1
                  (posEvolves_relocate hocc1 rfl ⟨1, ?_, ?_⟩)
                · show occ.x = a0.x + ((1 : Nat) : Int) * dx
                  rw [hoccx]
                  push_cast
                  ring
                · show occ.y = a0.y + ((1 : Nat) : Int) * dy
                  rw [hoccy]
                  push_cast
                  ring
              · intro _ a' ha'
                rw [hid] at ha'
                rw [findActor_base_move_self hocc1 rfl dx dy] at ha'
                cases ha'
                refine ⟨?_, ?_⟩
                · show occ.x + dx = a0.x + dx
                  rw [hocceq]
                · show occ.y + dy = a0.y + dy
                  rw [hocceq]
            · rw [if_neg hid] at hrun
              rw [hself] at hrun
              dsimp only at hrun
              obtain ⟨hr, hsF⟩ := moveRes_inj hrun
              rw [hr, hsF]
              have hself1 : findActor (setActor s { occ with life := 0 })
                  a0.id = some a0 := by
                rw [findActor_setActor, if_neg hid]
                exact hself
              refine ⟨sameFrame_trans (setActor_frame s _) (setActor_frame _ _),
                posEvolves_comp (setActor_frame s _) hps1
                  (posEvolves_relocate hself1 rfl (onRay_self a0 dx dy)), ?_⟩
              intro _ a' ha'
              rw [findActor_base_move_self hself1 rfl dx dy] at ha'
              cases ha'
              exact ⟨rfl, rfl⟩
          · rw [if_neg hk2] at hrun
            by_cases hk3 : occ.kind = Kind.flame
            · rw [if_pos hk3] at hrun
              obtain ⟨hr, hsF⟩ := moveRes_inj hrun
              rw [hr, hsF]
              refine ⟨setActor_frame s _, posEvolves_of_posSame ?_ a0 dx dy,
                fun h => by simp at h⟩
              exact posSame_setActor hself rfl rfl
            · rw [if_neg hk3] at hrun
              obtain ⟨hr, hsF⟩ := moveRes_inj hrun
              rw [hr, hsF]
              refine ⟨setActor_frame s _,
                posEvolves_relocate hself rfl (onRay_self a0 dx dy), ?_⟩
              intro _ a' ha'
              rw [findActor_base_move_self hself rfl dx dy] at ha'
              cases ha'
              exact ⟨rfl, rfl⟩
  · rw [if_neg hib] at hrun
    obtain ⟨hr, hsF⟩ := moveRes_inj hrun
    rw [hr, hsF]
    exact ⟨sameFrame_refl s, posEvolves_of_posSame (posSame_refl s) a0 dx dy,
      fun h => by simp at h⟩

theorem moveActor_ok : ∀ fuel, MoveProp (moveActor fuel) := by
  intro fuel
  induction fuel with
  | zero =>
    intro s selfId otherId dx dy r s' a0 hrun _
    simp [moveActor] at hrun
  | succ n ih =>
    intro s selfId otherId dx dy r s' a0 hrun hself
    have hid : a0.id = selfId := findActor_id hself
    subst hid
    rw [moveActor] at hrun
    rw [hself] at hrun
    dsimp only at hrun
    cases hka : a0.kind
    case wall =>
      rw [hka] at hrun
      dsimp only at hrun
      obtain ⟨hr, hsF⟩ := moveRes_inj hrun
      rw [hr, hsF]
      exact ⟨sameFrame_refl s, posEvolves_of_posSame (posSame_refl s) a0 dx dy,
        fun h => by simp at h⟩
    case flame =>
      rw [hka] at hrun
      dsimp only at hrun
      obtain ⟨hr, hsF⟩ := moveRes_inj hrun
      rw [hr, hsF]
      exact ⟨sameFrame_refl s, posEvolves_of_posSame (posSame_refl s) a0 dx dy,
        fun h => by simp at h⟩
    case box =>
      rw [hka] at hrun
      dsimp only at hrun
      exact boxMoveAux_ok ih hself hrun
    case stickyBox =>
      rw [hka] at hrun
      dsimp only at hrun
      exact boxMoveAux_ok ih hself hrun
    case player =>
      rw [hka] at hrun
      dsimp only at hrun
      exact playerMoveAux_ok ih hself hrun
    case normalMonster =>
      rw [hka] at hrun
      dsimp only at hrun
      exact monsterMoveAux_ok hself hrun
    case ezMonster =>
      rw [hka] at hrun
      dsimp only at hrun
      exact monsterMoveAux_ok hself hrun
    case explodingMonster =>
      rw [hka] at hrun
      dsimp only at hrun
      exact monsterMoveAux_ok hself hrun

theorem sameFrame_symm {s t : GState} (h : SameFrame s t) : SameFrame t s :=
  ⟨h.1.symm, h.2.1.symm, h.2.2.1.symm, h.2.2.2.1.symm, h.2.2.2.2.symm⟩

theorem noOverlap_spec {s : GState} (h : noOverlapB s = true) {aid bid : Nat}
    {a b : WActor} (ha : aid ∈ s.stage) (hb : bid ∈ s.stage) (hne : aid ≠ bid)
    (hfa : findActor s aid = some a) (hfb : findActor s bid = some b) :
    ¬(a.x = b.x ∧ a.y = b.y) := by
  unfold noOverlapB at h
  rw [List.all_eq_true] at h
  have h1 := h aid ha
  rw [List.all_eq_true] at h1
  have h2 := h1 bid hb
  simp only [Bool.or_eq_true, beq_iff_eq, decide_eq_true_eq] at h2
  rcases h2 with (h2 | h2) | h2
  · exact absurd h2 hne
  · intro hxy
    apply h2
    unfold posOfId
    rw [hfa, hfb]
    simp [hxy.1, hxy.2]
  · unfold posOfId at h2
    rw [hfa] at h2
    simp at h2

theorem wallChainB_nil {s : GState} {dx dy x y : Int}
    (h : wallChainB s dx dy [] x y = true) :
    is_in_bounds s x y = true ∧
    ∃ w, get_actor s x y = some w ∧ w.kind = Kind.wall := by
  unfold wallChainB at h
  rw [Bool.and_eq_true] at h
  refine ⟨h.1, ?_⟩
  have h2 := h.2
  cases hg : get_actor s x y with
  | none => rw [hg] at h2; simp at h2
  | some w =>
    rw [hg] at h2
    simp only [Option.map_some', beq_iff_eq, Option.some.injEq] at h2
    exact ⟨w, rfl, h2⟩

theorem wallChainB_cons {s : GState} {dx dy x y : Int} {bid : Nat}
    {rest : List Nat} (h : wallChainB s dx dy (bid :: rest) x y = true) :
    is_in_bounds s x y = true ∧
    (∃ b, get_actor s x y = some b ∧ b.id = bid ∧ b.kind.isBox = true) ∧
    wallChainB s dx dy rest (x + dx) (y + dy) = true := by
  unfold wallChainB at h
  rw [Bool.and_eq_true, Bool.and_eq_true, Bool.and_eq_true] at h
  obtain ⟨⟨⟨h1, h2⟩, h3⟩, h4⟩ := h
  refine ⟨h1, ?_, h4⟩
  cases hg : get_actor s x y with
  | none => rw [hg] at h2; simp at h2
  | some b =>
    rw [hg] at h2 h3
    simp only [Option.map_some', beq_iff_eq, Option.some.injEq] at h2 h3
    exact ⟨b, rfl, h2, h3⟩

theorem removeFirst_isSome {l : List Nat} {aid : Nat} (h : aid ∈ l) :
    ∃ l2, removeFirst l aid = some l2 := by
  induction l with
  | nil => simp at h
  | cons b bs ih =>
    rw [removeFirst]
    by_cases hb : b = aid
    · rw [if_pos hb]
      exact ⟨bs, rfl⟩
    · rw [if_neg hb]
      rcases List.mem_cons.mp h with h1 | h1
      · exact absurd h1.symm hb
      · obtain ⟨l2, hl2⟩ := ih h1
        exact ⟨b :: l2, by rw [hl2]; rfl⟩

theorem removeFirst_not_mem {l : List Nat} {aid : Nat} {l2 : List Nat}
    (hc : l.count aid = 1) (h : removeFirst l aid = some l2) : aid ∉ l2 := by
  induction l generalizing l2 with
  | nil => simp [removeFirst] at h
  | cons b bs ih =>
    rw [removeFirst] at h
    by_cases hb : b = aid
    · rw [if_pos hb] at h
      cases h
      subst hb
      rw [List.count_cons_self] at hc
      have : bs.count b = 0 := by omega
      exact List.count_eq_zero.mp this
    · rw [if_neg hb] at h
      cases hr : removeFirst bs aid with
      | none => rw [hr] at h; simp at h
      | some l3 =>
        rw [hr] at h
        simp only [Option.map_some', Option.some.injEq] at h
        subst h
        rw [List.count_cons_of_ne (fun hx => hb hx.symm)] at hc
        intro hmem
        rcases List.mem_cons.mp hmem with h1 | h1
        · exact hb h1.symm
        · exact ih hc hr h1

theorem remove_actor_parts {s : GState} {aid : Nat} {s2 : GState}
    (h : remove_actor s aid = some s2) :
    s2.store = s.store ∧ removeFirst s.stage aid = some s2.stage := by
  unfold remove_actor at h
  cases hr : removeFirst s.stage aid with
  | none => rw [hr] at h; simp at h
  | some l =>
    rw [hr] at h
    simp only [Option.map_some', Option.some.injEq] at h
    subst h
    exact ⟨rfl, rfl⟩

theorem monsterMoveAux_run {s : GState} {a : WActor} {otherId : Nat}
    {dx dy : Int}
    (hself : findActor s a.id = some a) (hk : ¬a.kind = Kind.player) :
    ∃ r sF, monsterMoveAux s a otherId dx dy = some (r, sF) ∧
      SameFrame s sF ∧
      ∀ b', findActor sF a.id = some b' → b'.life = a.life := by
  unfold monsterMoveAux
  by_cases hot : otherId ≠ a.id
  · rw [if_pos hot]
    refine ⟨some false, s, rfl, sameFrame_refl s, fun b' hb' => ?_⟩
    rw [hself] at hb'
    cases hb'
    rfl
  · rw [if_neg hot]
    dsimp only
    by_cases hbounce : is_in_bounds_x s (a.x + a.dx) = false ∨
        is_in_bounds_y s (a.y + a.dy) = false
    · rw [if_pos hbounce]
      refine ⟨some false, _, rfl, setActor_frame s _, fun b' hb' => ?_⟩
      rw [findActor_setActor, if_pos rfl,
        if_pos (show (findActor s a.id).isSome = true by rw [hself]; rfl)]
        at hb'
      cases hb'
      rfl
    · rw [if_neg hbounce]
      by_cases hib : is_in_bounds s (a.x + a.dx) (a.y + a.dy) = true
      · rw [if_pos hib]
        cases hga : get_actor s (a.x + a.dx) (a.y + a.dy) with
        | none =>
          dsimp only
          refine ⟨some true, _, rfl, setActor_frame s _, fun b' hb' => ?_⟩
          rw [findActor_base_move_self hself rfl dx dy] at hb'
          cases hb'
          rfl
        | some occ =>
          dsimp only
          obtain ⟨hoccx, hoccy, hoccmem, hfocc⟩ := get_actor_spec hga
          by_cases hk1 : occ.kind = Kind.player
          · rw [if_pos hk1]
            have hne : ¬a.id = occ.id := by
              intro h
              rw [h, hfocc] at hself
              cases hself
              exact hk hk1
            refine ⟨some false, _, rfl, setActor_frame s _, fun b' hb' => ?_⟩
            rw [findActor_setActor, if_neg hne, hself] at hb'
            cases hb'
            rfl
          · rw [if_neg hk1]
            by_cases hk2 : occ.kind = Kind.stickyBox
            · rw [if_pos hk2]
              refine ⟨none, _, rfl, setActor_frame s _, fun b' hb' => ?_⟩
              rw [findActor_setActor, if_pos rfl,
                if_pos (show (findActor s a.id).isSome = true by
                  rw [hself]; rfl)] at hb'
              cases hb'
              rfl
            · rw [if_neg hk2]
              refine ⟨some false, _, rfl, setActor_frame s _,
                fun b' hb' => ?_⟩
              rw [findActor_setActor, if_pos rfl,
                if_pos (show (findActor s a.id).isSome = true by
                  rw [hself]; rfl)] at hb'
              cases hb'
              rfl
      · rw [if_neg hib]
        refine ⟨some false, _, rfl, setActor_frame s _, fun b' hb' => ?_⟩
        rw [findActor_base_move_self hself rfl dx dy] at hb'
        cases hb'
        rfl

theorem moveActor_monster_run (fuel : Nat) {s : GState} {aid otherId : Nat}
    {a : WActor} {dx dy : Int}
    (ha : findActor s aid = some a)
    (hkind : a.kind = Kind.normalMonster ∨ a.kind = Kind.ezMonster ∨
      a.kind = Kind.explodingMonster) :
    ∃ r sF, moveActor (fuel + 1) s aid otherId dx dy = some (r, sF) ∧
      SameFrame s sF ∧
      ∀ b', findActor sF aid = some b' → b'.life = a.life := by
  have hid : a.id = aid := findActor_id ha
  subst hid
  rw [moveActor, ha]
  dsimp only
  have hknp : ¬a.kind = Kind.player := by
    rcases hkind with h | h | h <;> simp [h]
  obtain ⟨r, sF, h1, h2, h3⟩ := monsterMoveAux_run ha hknp
  rcases hkind with h | h | h <;> rw [h] <;> exact ⟨r, sF, h1, h2, h3⟩

theorem monsterTail_run {s : GState} {aid : Nat} {a : WActor}
    (ha : findActor s aid = some a)
    (hkind : a.kind = Kind.normalMonster ∨ a.kind = Kind.ezMonster ∨
      a.kind = Kind.explodingMonster)
    (hdn : a.delayN ≠ 0) :
    ∃ s4, monsterTail s aid = some s4 ∧ s4.stage = s.stage ∧
      (findActor s4 aid).isSome = true ∧
      ∀ b', findActor s4 aid = some b' → b'.life = a.life := by
  have hid : a.id = aid := findActor_id ha
  unfold monsterTail
  rw [ha]
  dsimp only
  unfold delayStep
  rw [if_neg hdn]
  dsimp only
  have ha1find : findActor
      (setActor s { a with delayCount := (a.delayCount + 1) % a.delayN }) aid
      = some { a with delayCount := (a.delayCount + 1) % a.delayN } := by
    rw [findActor_setActor, if_pos hid.symm,
      if_pos (show (findActor s a.id).isSome = true by
        rw [hid, ha]; rfl)]
  by_cases hfire : (a.delayCount + 1) % a.delayN = 0
  · rw [if_pos (by simpa using hfire)]
    obtain ⟨r, sF, hmv, hfr, hlife⟩ :=
      moveActor_monster_run
        ((setActor s { a with delayCount := (a.delayCount + 1) % a.delayN
          }).stage.length + 1) ha1find hkind
    rw [show moveFuel (setActor s
        { a with delayCount := (a.delayCount + 1) % a.delayN }) =
      (setActor s { a with delayCount := (a.delayCount + 1) % a.delayN
        }).stage.length + 1 + 1 from rfl]
    rw [hmv]
    dsimp only
    refine ⟨sF, rfl, hfr.1, ?_, hlife⟩
    exact findActor_isSome_of_frame hfr (by rw [ha1find]; rfl)
  · rw [if_neg (by simpa using hfire)]
    refine ⟨_, rfl, rfl, by rw [ha1find]; rfl, fun b' hb' => ?_⟩
    rw [ha1find] at hb'
    cases hb'
    rfl

theorem is_trapped_eq {s : GState} {a : WActor}
    (hcenter : blockedCell s a.x a.y = true) :
    is_trapped s a = neighbours8Blocked s a := by
  unfold is_trapped neighbours8Blocked cells3x3
  simp only [List.all_cons, List.all_nil, hcenter, Bool.true_and,
    Bool.and_true]

theorem monsterStep_removes {s : GState} {mid : Nat} {m : WActor}
    (hm : findActor s mid = some m)
    (hkind : m.kind = Kind.normalMonster ∨ m.kind = Kind.ezMonster)
    (hlife : m.life = 0) (hstuck : m.stuck = false) (hdn : m.delayN ≠ 0)
    (hcount : s.stage.count mid = 1) :
    ∃ s4, monsterStep s m = some s4 ∧ s4.stage.contains mid = false := by
  have hid : m.id = mid := findActor_id hm
  have hmem : mid ∈ s.stage := by
    have : 0 < s.stage.count mid := by omega
    exact List.count_pos_iff.mp this
  obtain ⟨l2, hl2⟩ := removeFirst_isSome hmem
  have hnot : mid ∉ l2 := removeFirst_not_mem hcount hl2
  unfold monsterStep
  rw [if_pos (show is_dead m = true by simp [is_dead, hlife])]
  unfold remove_actor
  rw [show removeFirst s.stage m.id = some l2 by rw [hid]; exact hl2,
    Option.map_some']
  dsimp only
  set s1 : GState := { s with stage := l2 } with hs1
  set a2 := if is_trapped s1 m = true then { m with life := m.life - 1 }
    else { m with life := 5 } with ha2
  have ha2id : a2.id = mid := by
    rw [ha2]
    split <;> exact hid
  have ha2stuck : a2.stuck = false := by
    rw [ha2]
    split <;> exact hstuck
  have ha2dn : a2.delayN ≠ 0 := by
    rw [ha2]
    split <;> exact hdn
  have ha2kind : a2.kind = m.kind := by
    rw [ha2]
    split <;> rfl
  have hfind1 : findActor s1 mid = some m := hm
  have hfind2 : findActor (setActor s1 a2) mid = some a2 := by
    rw [findActor_setActor, if_pos ha2id.symm,
      if_pos (by rw [ha2id, hfind1]; rfl)]
  rw [if_neg (show ¬a2.stuck = true by rw [ha2stuck]; simp)]
  obtain ⟨s4, htail, hstage, _, _⟩ :=
    monsterTail_run hfind2 (by rw [ha2kind]; rcases hkind with h | h <;>
      simp [h]) ha2dn
  rw [show a2.id = mid from ha2id, htail]
  refine ⟨s4, rfl, ?_⟩
  rw [hstage]
  show (l2.contains mid) = false
  simpa using hnot

theorem isBox_not_isMonster {k : Kind} (h : k.isBox = true) :
    k.isMonster = false := by
  cases k <;> simp_all [Kind.isBox, Kind.isMonster]

theorem pushPartA {rec : MoveFn} (hrec : MoveProp rec)
    {s s1 : GState} {a0 occ occ1 : WActor} {dx dy : Int} {sF : GState}
    (hno : noOverlapB s = true) (hd : ¬(dx = 0 ∧ dy = 0))
    (hmem : a0.id ∈ s.stage) (hself : findActor s a0.id = some a0)
    (hga : get_actor s (a0.x + dx) (a0.y + dy) = some occ)
    (hfr1 : SameFrame s s1) (hps1 : PosSame s s1)
    (hocc1 : findActor s1 occ.id = some occ1)
    (hocc1x : occ1.x = occ.x) (hocc1y : occ1.y = occ.y)
    (hrun : pushInto rec s1 occ.id a0.id dx dy = some (some true, sF)) :
    ∀ bid b', bid ∈ s.stage → bid ≠ a0.id → findActor sF bid = some b' →
      ¬(b'.x = a0.x + dx ∧ b'.y = a0.y + dy) := by
  obtain ⟨hoccx, hoccy, hoccmem, hfocc⟩ := get_actor_spec hga
  unfold pushInto at hrun
  cases hrec2 : rec s1 occ.id a0.id dx dy with
  | none =>
    rw [hrec2] at hrun
    cases hrun
  | some p =>
    obtain ⟨r2, s2⟩ := p
    rw [hrec2] at hrun
    dsimp only at hrun
    obtain ⟨hfr2, hev2, hmv2⟩ :=
      hrec s1 occ.id a0.id dx dy r2 s2 occ1 hrec2 hocc1
    by_cases hr2 : r2 = some true
    case neg =>
      rw [if_neg hr2] at hrun
      obtain ⟨hr, _⟩ := moveRes_inj hrun
      simp at hr
    case pos =>
    rw [if_pos hr2] at hrun
    cases ha2m : findActor s2 a0.id with
    | none =>
      rw [ha2m] at hrun
      cases hrun
    | some a2 =>
      rw [ha2m] at hrun
      obtain ⟨_, hsF⟩ := moveRes_inj hrun
      have ha2id : a2.id = a0.id := findActor_id ha2m
      intro bid b' hbmem hbne hb' hcon
      rw [hsF, findActor_base_move_ne (by rw [ha2id]; exact hbne)] at hb'
      have hbsome : (findActor s bid).isSome := by
        have h2 := findActor_isSome_of_frame (sameFrame_symm hfr2)
          (by rw [hb']; rfl)
        exact findActor_isSome_of_frame (sameFrame_symm hfr1) h2
      obtain ⟨b, hb⟩ := Option.isSome_iff_exists.mp hbsome
      have hb1some : (findActor s1 bid).isSome :=
        findActor_isSome_of_frame hfr1 (by rw [hb]; rfl)
      obtain ⟨b1, hb1⟩ := Option.isSome_iff_exists.mp hb1some
      have hbp := hps1 bid b b1 hb hb1
      have hocc1x2 : occ1.x = a0.x + dx := by rw [hocc1x, hoccx]
      have hocc1y2 : occ1.y = a0.y + dy := by rw [hocc1y, hoccy]
      rcases hev2 bid b1 b' hb1 hb' with ⟨h1, h2⟩ | ⟨h1, h2, k, hk1, hk2⟩
      · have hbx : b.x = a0.x + dx := by rw [← hbp.1, ← h1]; exact hcon.1
        have hby : b.y = a0.y + dy := by rw [← hbp.2, ← h2]; exact hcon.2
        by_cases hbo : bid = occ.id
        · subst hbo
          have hocc2 := hmv2 hr2 b' hb'
          have hdx : dx = 0 := by
            have hx := hcon.1
            rw [hocc2.1, hocc1x2] at hx
            omega
          have hdy : dy = 0 := by
            have hy := hcon.2
            rw [hocc2.2, hocc1y2] at hy
            omega
          exact hd ⟨hdx, hdy⟩
        · exact noOverlap_spec hno hbmem hoccmem hbo hb hfocc
            ⟨by rw [hbx, hoccx], by rw [hby, hoccy]⟩
      · have hbx : b.x = a0.x := by
          have hx := hcon.1
          rw [h1, hbp.1] at hx
          omega
        have hby : b.y = a0.y := by
          have hy := hcon.2
          rw [h2, hbp.2] at hy
          omega
        exact noOverlap_spec hno hbmem hmem hbne hb hself ⟨hbx, hby⟩

theorem boxPartA {rec : MoveFn} (hrec : MoveProp rec) {s : GState}
    {a0 : WActor} {sticky : Bool} {dx dy : Int} {sF : GState}
    (hno : noOverlapB s = true) (hd : ¬(dx = 0 ∧ dy = 0))
    (hmem : a0.id ∈ s.stage) (hself : findActor s a0.id = some a0)
    (hrun : boxMoveAux rec s a0 sticky dx dy = some (some true, sF)) :
    is_in_bounds s (a0.x + dx) (a0.y + dy) = true ∧
    ∀ bid b', bid ∈ s.stage → bid ≠ a0.id → findActor sF bid = some b' →
      ¬(b'.x = a0.x + dx ∧ b'.y = a0.y + dy) := by
  unfold boxMoveAux at hrun
  dsimp only at hrun
  by_cases hib : is_in_bounds s (a0.x + dx) (a0.y + dy) = true
  case neg =>
    rw [if_neg hib] at hrun
    obtain ⟨hr, _⟩ := moveRes_inj hrun
    simp at hr
  case pos =>
  rw [if_pos hib] at hrun
  refine ⟨hib, ?_⟩
  cases hga : get_actor s (a0.x + dx) (a0.y + dy) with
  | none =>
    rw [hga] at hrun
    dsimp only at hrun
    obtain ⟨_, hsF⟩ := moveRes_inj hrun
    intro bid b' hbmem hbne hb' hcon
    rw [hsF, findActor_base_move_ne hbne] at hb'
    exact get_actor_none hga hbmem hb' hcon
  | some occ =>
    rw [hga] at hrun
    dsimp only at hrun
    obtain ⟨hoccx, hoccy, hoccmem, hfocc⟩ := get_actor_spec hga
    by_cases hst : sticky = true ∧ occ.kind.isMonster = true
    · rw [if_pos hst] at hrun
      have hocc1 : findActor
          (setActor s { occ with stuck := true, stickWith := some a0.id })
          occ.id = some { occ with stuck := true, stickWith := some a0.id } := by
        rw [findActor_setActor, if_pos rfl,
          if_pos (show (findActor s occ.id).isSome = true by rw [hfocc]; rfl)]
      refine pushPartA hrec hno hd hmem hself hga (setActor_frame s _) ?_
        hocc1 rfl rfl hrun
      exact posSame_setActor hfocc rfl rfl
    · rw [if_neg hst] at hrun
      exact pushPartA hrec hno hd hmem hself hga (sameFrame_refl s)
        (posSame_refl s) hfocc rfl rfl hrun

theorem pushInto_success {rec : MoveFn} (hrec : MoveProp rec)
    {s s1 : GState} {a0 occ1 : WActor} {occId selfId : Nat} {dx dy : Int}
    {sF : GState}
    (hself : findActor s selfId = some a0)
    (hfr1 : SameFrame s s1) (hps1 : PosSame s s1)
    (hocc : findActor s1 occId = some occ1)
    (hoccx : occ1.x = a0.x + dx) (hoccy : occ1.y = a0.y + dy)
    (hrun : pushInto rec s1 occId selfId dx dy = some (some true, sF)) :
    ∃ s2 a2, rec s1 occId selfId dx dy = some (some true, s2) ∧
      findActor s2 selfId = some a2 ∧ a2.x = a0.x ∧ a2.y = a0.y ∧
      sF = base_move s2 a2 dx dy := by
  unfold pushInto at hrun
  cases hrec2 : rec s1 occId selfId dx dy with
  | none =>
    rw [hrec2] at hrun
    cases hrun
  | some p =>
    obtain ⟨r2, s2⟩ := p
    rw [hrec2] at hrun
    dsimp only at hrun
    obtain ⟨hfr2, hev2, _⟩ :=
      hrec s1 occId selfId dx dy r2 s2 occ1 hrec2 hocc
    have hself1some : (findActor s1 selfId).isSome :=
      findActor_isSome_of_frame hfr1 (by rw [hself]; rfl)
    obtain ⟨a1, ha1⟩ := Option.isSome_iff_exists.mp hself1some
    have ha1pos : a1.x = a0.x ∧ a1.y = a0.y := hps1 selfId a0 a1 hself ha1
    by_cases hr2 : r2 = some true
    case neg =>
      rw [if_neg hr2] at hrun
      obtain ⟨hr, _⟩ := moveRes_inj hrun
      simp at hr
    case pos =>
    rw [if_pos hr2] at hrun
    cases ha2m : findActor s2 selfId with
    | none =>
      rw [ha2m] at hrun
      cases hrun
    | some a2 =>
      rw [ha2m] at hrun
      obtain ⟨_, hsF⟩ := moveRes_inj hrun
      subst hr2
      have ha2pos : a2.x = a0.x ∧ a2.y = a0.y := by
        rcases hev2 selfId a1 a2 ha1 ha2m with ⟨h1, h2⟩ | ⟨h1, h2, k, hk1, hk2⟩
        · exact ⟨h1.trans ha1pos.1, h2.trans ha1pos.2⟩
        · have hdx : dx = 0 :=
            ray_collapse (by rw [hk1, hoccx]) ha1pos.1
          have hdy : dy = 0 :=
            ray_collapse (by rw [hk2, hoccy]) ha1pos.2
          rw [hdx] at h1
          rw [hdy] at h2
          simp only [add_zero] at h1 h2
          exact ⟨h1.trans ha1pos.1, h2.trans ha1pos.2⟩
      exact ⟨s2, a2, rfl, ha2m, ha2pos.1, ha2pos.2, hsF⟩

theorem boxChainStep {rec : MoveFn} {s : GState} {b occ2 : WActor}
    {sticky : Bool} {dx dy : Int}
    (hinb2 : is_in_bounds s (b.x + dx) (b.y + dy) = true)
    (hgocc : get_actor s (b.x + dx) (b.y + dy) = some occ2)
    (hoccnm : occ2.kind.isMonster = false)
    (hrec : rec s occ2.id b.id dx dy = some (none, s) ∨
      rec s occ2.id b.id dx dy = some (some false, s)) :
    boxMoveAux rec s b sticky dx dy = some (none, s) := by
  unfold boxMoveAux
  dsimp only
  rw [if_pos hinb2, hgocc]
  dsimp only
  rw [if_neg (by
    intro h
    rw [hoccnm] at h
    exact absurd h.2 (by simp))]
  unfold pushInto
  rcases hrec with h | h <;> rw [h] <;> dsimp only <;>
    rw [if_neg (by simp)]

theorem wallChain_fails {s : GState} {dx dy : Int} :
    ∀ (ids : List Nat) (x y : Int) (otherId : Nat) (fuel : Nat),
      wallChainB s dx dy ids x y = true →
      ids.length < fuel →
      ∀ bid ∈ ids, moveActor fuel s bid otherId dx dy = some (none, s) := by
  intro ids
  induction ids with
  | nil =>
    intro x y otherId fuel _ _ bid hbid
    simp at hbid
  | cons b0 rest ih =>
    intro x y otherId fuel hchain hlen bid hbid
    obtain ⟨hinb, ⟨b, hgb, hbid0, hbbox⟩, hrest⟩ := wallChainB_cons hchain
    obtain ⟨hbx, hby, hbmem, hfb⟩ := get_actor_spec hgb
    rcases List.mem_cons.mp hbid with hcase | hcase
    case inr =>
      refine ih (x + dx) (y + dy) otherId fuel hrest ?_ bid hcase
      simp only [List.length_cons] at hlen
      omega
    case inl =>
      subst hcase
      cases fuel with
      | zero => simp at hlen
      | succ m =>
        have hfb0 : findActor s bid = some b := by
          rw [← hbid0]
          exact hfb
        rw [moveActor, hfb0]
        dsimp only
        have hnext : boxMoveAux (moveActor m) s b true dx dy
              = some (none, s) ∧
            boxMoveAux (moveActor m) s b false dx dy = some (none, s) := by
          have hm1 : 1 ≤ m := by
            simp only [List.length_cons] at hlen
            omega
          cases rest with
          | nil =>
            obtain ⟨hinb2, w, hgw, hwk⟩ := wallChainB_nil hrest
            have hinb2' : is_in_bounds s (b.x + dx) (b.y + dy) = true := by
              rw [hbx, hby]
              exact hinb2
            have hgw' : get_actor s (b.x + dx) (b.y + dy) = some w := by
              rw [hbx, hby]
              exact hgw
            have hwmove : moveActor m s w.id b.id dx dy
                = some (some false, s) := by
              cases m with
              | zero => omega
              | succ m2 =>
                obtain ⟨_, _, _, hfw⟩ := get_actor_spec hgw
                rw [moveActor, hfw]
                dsimp only
                rw [hwk]
            have hwnm : w.kind.isMonster = false := by
              rw [hwk]
              rfl
            exact ⟨boxChainStep hinb2' hgw' hwnm (Or.inr hwmove),
              boxChainStep hinb2' hgw' hwnm (Or.inr hwmove)⟩
          | cons b1 rest2 =>
            obtain ⟨hinb2, ⟨c, hgc, hcid, hcbox⟩, _⟩ := wallChainB_cons hrest
            have hinb2' : is_in_bounds s (b.x + dx) (b.y + dy) = true := by
              rw [hbx, hby]
              exact hinb2
            have hgc' : get_actor s (b.x + dx) (b.y + dy) = some c := by
              rw [hbx, hby]
              exact hgc
            have hcmove : moveActor m s c.id b.id dx dy = some (none, s) := by
              rw [hcid]
              refine ih (x + dx) (y + dy) b.id m hrest ?_ b1 (by simp)
              simp only [List.length_cons] at hlen ⊢
              omega
            have hcnm : c.kind.isMonster = false := isBox_not_isMonster hcbox
            exact ⟨boxChainStep hinb2' hgc' hcnm (Or.inl hcmove),
              boxChainStep hinb2' hgc' hcnm (Or.inl hcmove)⟩
        cases hbk : b.kind <;> simp only [hbk, Kind.isBox] at hbbox <;>
          first
          | exact hnext.2
          | exact hnext.1
          | simp at hbbox

/-- C2: (a) under the one-actor-per-cell invariant, a Box (or StickyBox)
whose move succeeds relocates into an in-bounds cell that no other stage
actor occupies in the resulting state; (b) a chain of boxes pushed into a
Wall fails for every box of the chain — each mover's move call returns
Python None — with the state completely unchanged (no partial relocation);
(c) a successful push into an occupied cell decomposes bottom-up: the
occupant's recursive move succeeds first, the pusher is still at its
original cell in that intermediate state, and the final state is exactly
that state followed by the pusher's own relocation. -/
theorem C2_push_chain :
    (∀ (s : GState) (selfId otherId : Nat) (a0 : WActor) (dx dy : Int)
      (fuel : Nat) (sF : GState),
      noOverlapB s = true → ¬(dx = 0 ∧ dy = 0) → selfId ∈ s.stage →
      findActor s selfId = some a0 → a0.kind.isBox = true →
      moveActor fuel s selfId otherId dx dy = some (some true, sF) →
      is_in_bounds s (a0.x + dx) (a0.y + dy) = true ∧
      ∀ bid b', bid ∈ s.stage → bid ≠ selfId → findActor sF bid = some b' →
        ¬(b'.x = a0.x + dx ∧ b'.y = a0.y + dy)) ∧
    (∀ (s : GState) (dx dy : Int) (ids : List Nat) (x y : Int)
      (otherId fuel : Nat),
      wallChainB s dx dy ids x y = true → ids.length < fuel →
      ∀ bid ∈ ids, moveActor fuel s bid otherId dx dy = some (none, s)) ∧
    (∀ (s : GState) (selfId otherId : Nat) (a0 occ : WActor) (dx dy : Int)
      (fuel : Nat) (sF : GState),
      findActor s selfId = some a0 → a0.kind.isBox = true →
      is_in_bounds s (a0.x + dx) (a0.y + dy) = true →
      get_actor s (a0.x + dx) (a0.y + dy) = some occ →
      moveActor (fuel + 1) s selfId otherId dx dy = some (some true, sF) →
      ∃ s2 a2, moveActor fuel (markSticky s a0 occ) occ.id selfId dx dy
          = some (some true, s2) ∧
        findActor s2 selfId = some a2 ∧ a2.x = a0.x ∧ a2.y = a0.y ∧
        sF = base_move s2 a2 dx dy) := by
  refine ⟨?_, ?_, ?_⟩
  · intro s selfId otherId a0 dx dy fuel sF hno hd hmem hself hkb hrun
    cases fuel with
    | zero => simp [moveActor] at hrun
    | succ n =>
      have hid : a0.id = selfId := findActor_id hself
      subst hid
      rw [moveActor, hself] at hrun
      dsimp only at hrun
      cases hbk : a0.kind <;> rw [hbk] at hrun <;>
        simp only [hbk, Kind.isBox] at hkb <;> dsimp only at hrun
      case box => exact boxPartA (moveActor_ok n) hno hd hmem hself hrun
      case stickyBox => exact boxPartA (moveActor_ok n) hno hd hmem hself hrun
      all_goals simp at hkb
  · intro s dx dy ids x y otherId fuel hchain hlen bid hbid
    exact wallChain_fails ids x y otherId fuel hchain hlen bid hbid
  · intro s selfId otherId a0 occ dx dy fuel sF hself hkb hib hga hrun
    have hid : a0.id = selfId := findActor_id hself
    subst hid
    obtain ⟨hoccx, hoccy, hoccmem, hfocc⟩ := get_actor_spec hga
    rw [moveActor, hself] at hrun
    dsimp only at hrun
    cases hbk : a0.kind <;> rw [hbk] at hrun <;>
      simp only [hbk, Kind.isBox] at hkb <;> dsimp only at hrun
    case box =>
      unfold boxMoveAux at hrun
      dsimp only at hrun
      rw [if_pos hib, hga] at hrun
      dsimp only at hrun
      rw [if_neg (by simp)] at hrun
      rw [show markSticky s a0 occ = s by simp [markSticky, hbk]]
      exact pushInto_success (moveActor_ok fuel) hself (sameFrame_refl s)
        (posSame_refl s) hfocc hoccx hoccy hrun
    case stickyBox =>
      unfold boxMoveAux at hrun
      dsimp only at hrun
      rw [if_pos hib, hga] at hrun
      dsimp only at hrun
      by_cases hm : occ.kind.isMonster = true
      · rw [if_pos ⟨rfl, hm⟩] at hrun
        have hocc1 : findActor
            (setActor s { occ with stuck := true, stickWith := some a0.id })
            occ.id
            = some { occ with stuck := true, stickWith := some a0.id } := by
          rw [findActor_setActor, if_pos rfl,
            if_pos (show (findActor s occ.id).isSome = true by
              rw [hfocc]; rfl)]
        rw [show markSticky s a0 occ
            = setActor s { occ with stuck := true, stickWith := some a0.id }
          by simp [markSticky, hbk, hm]]
        refine pushInto_success (moveActor_ok fuel) hself (setActor_frame s _)
          ?_ hocc1 hoccx hoccy hrun
        exact posSame_setActor hfocc rfl rfl
      · rw [if_neg (by
          intro h
          exact hm h.2)] at hrun
        rw [show markSticky s a0 occ = s by simp [markSticky, hbk, hm]]
        exact pushInto_success (moveActor_ok fuel) hself (sameFrame_refl s)
          (posSame_refl s) hfocc hoccx hoccy hrun
    all_goals simp at hkb

/-- C2 witness: in the two-box chain ending at the wall, both boxes' move
calls return None with the state unchanged, and the two-box open push is in
bounds. -/
theorem C2_push_chain_witness :
    moveActor 5 c2WallStage 1 0 1 0 = some (none, c2WallStage) ∧
    moveActor 5 c2WallStage 2 1 1 0 = some (none, c2WallStage) ∧
    is_in_bounds c2OpenStage (5 + 1) (5 + 0) = true := by
  refine ⟨?_, ?_, ?_⟩
  · exact C2_push_chain.2.1 c2WallStage 1 0 [1, 2] 5 5 0 5 (by decide)
      (by decide) 1 (by decide)
  · exact C2_push_chain.2.1 c2WallStage 1 0 [1, 2] 5 5 1 5 (by decide)
      (by decide) 2 (by decide)
  · exact (C2_push_chain.1 c2OpenStage 1 0 (mkA 1 Kind.box 5 5 5 5) 1 0 5
      ((moveState (moveActor 5 c2OpenStage 1 0 1 0)).getD c2OpenStage)
      (by decide) (by decide) (by decide) (by decide) (by decide)
      (by decide)).1

/-- C9 amended: Box.move returns True exactly when the box relocates (into
its target cell) and False when the target is out of bounds, but when the
occupant of the target refuses the recursive request Box.move falls off the
end of the function and returns Python None — not False — leaving the box
where it was. -/
theorem C9_box_move_result {s : GState} {selfId otherId : Nat} {a0 : WActor}
    {dx dy : Int} (fuel : Nat)
    (hself : findActor s selfId = some a0) (hk : a0.kind = Kind.box) :
    (is_in_bounds s (a0.x + dx) (a0.y + dy) = false →
      moveActor (fuel + 1) s selfId otherId dx dy = some (some false, s)) ∧
    (is_in_bounds s (a0.x + dx) (a0.y + dy) = true →
      get_actor s (a0.x + dx) (a0.y + dy) = none →
      moveActor (fuel + 1) s selfId otherId dx dy
        = some (some true, base_move s a0 dx dy)) ∧
    (∀ occ r2 s2, is_in_bounds s (a0.x + dx) (a0.y + dy) = true →
      get_actor s (a0.x + dx) (a0.y + dy) = some occ →
      moveActor fuel s occ.id selfId dx dy = some (r2, s2) →
      r2 ≠ some true →
      moveActor (fuel + 1) s selfId otherId dx dy = some (none, s2) ∧
      ∀ b', findActor s2 selfId = some b' → b'.x = a0.x ∧ b'.y = a0.y) ∧
    (∀ r sF, moveActor (fuel + 1) s selfId otherId dx dy = some (r, sF) →
      r = some true →
      ∀ a', findActor sF selfId = some a' →
        a'.x = a0.x + dx ∧ a'.y = a0.y + dy) := by
  have hid : a0.id = selfId := findActor_id hself
  subst hid
  refine ⟨?_, ?_, ?_, ?_⟩
  · intro hoob
    rw [moveActor, hself]
    dsimp only
    rw [hk]
    dsimp only
    unfold boxMoveAux
    dsimp only
    rw [if_neg (by simp [hoob])]
  · intro hib hga
    rw [moveActor, hself]
    dsimp only
    rw [hk]
    dsimp only
    unfold boxMoveAux
    dsimp only
    rw [if_pos hib, hga]
  · intro occ r2 s2 hib hga hinner hr2
    obtain ⟨hoccx, hoccy, _, hfocc⟩ := get_actor_spec hga
    constructor
    · rw [moveActor, hself]
      dsimp only
      rw [hk]
      dsimp only
      unfold boxMoveAux
      dsimp only
      rw [if_pos hib, hga]
      dsimp only
      rw [if_neg (by simp)]
      unfold pushInto
      rw [hinner]
      dsimp only
      rw [if_neg hr2]
    · intro b' hb'
      obtain ⟨_, hev, _⟩ :=
        moveActor_ok fuel s occ.id a0.id dx dy r2 s2 occ hinner hfocc
      rcases hev a0.id a0 b' hself hb' with ⟨h1, h2⟩ | ⟨h1, h2, k, hk1, hk2⟩
      · exact ⟨h1, h2⟩
      · have hdx : dx = 0 := by
          rw [hoccx] at hk1
          exact ray_collapse hk1 rfl
        have hdy : dy = 0 := by
          rw [hoccy] at hk2
          exact ray_collapse hk2 rfl
        rw [hdx] at h1
        rw [hdy] at h2
        simp only [add_zero] at h1 h2
        exact ⟨h1, h2⟩
  · intro r sF hrun hr a' ha'
    exact (moveActor_ok (fuel + 1) s a0.id otherId dx dy r sF a0 hrun
      hself).2.2 hr a' ha'

/-- C9 witness: the box pushed into the wall gets Python None back. -/
theorem C9_box_move_result_witness :
    moveActor 5 c9Stage 1 0 1 0 = some (none, c9Stage) :=
  ((C9_box_move_result 4
    (show findActor c9Stage 1 = some (mkA 1 Kind.box 5 5 5 5) from by decide)
    (by decide)).2.2.1 (mkA 2 Kind.wall 6 5 5 5) (some false) c9Stage
    (by decide) (by decide) (by decide) (by decide)).1

/-- C10: a KeyboardPlayer self-move into an in-bounds cell whose occupant is
an ExplodingMonster falls through every isinstance branch into the
unconditional relocation: the move returns True, the player relocates onto
the still-occupied cell, the occupant object is untouched, no move request
is issued to it, and no actor's life changes. -/
theorem C10_player_onto_exploding {s : GState} {selfId otherId : Nat}
    {a0 occ : WActor} {dx dy : Int} (fuel : Nat)
    (hself : findActor s selfId = some a0) (hk : a0.kind = Kind.player)
    (hib : is_in_bounds s (a0.x + dx) (a0.y + dy) = true)
    (hga : get_actor s (a0.x + dx) (a0.y + dy) = some occ)
    (hocck : occ.kind = Kind.explodingMonster) :
    moveActor (fuel + 1) s selfId otherId dx dy
      = some (some true, base_move s a0 dx dy) ∧
    findActor (base_move s a0 dx dy) selfId
      = some { a0 with x := a0.x + dx, y := a0.y + dy } ∧
    findActor (base_move s a0 dx dy) occ.id = some occ ∧
    (∀ bid b b', findActor s bid = some b →
      findActor (base_move s a0 dx dy) bid = some b' → b'.life = b.life) := by
  have hid : a0.id = selfId := findActor_id hself
  subst hid
  obtain ⟨hoccx, hoccy, _, hfocc⟩ := get_actor_spec hga
  have hne : ¬occ.id = a0.id := by
    intro h
    rw [h, hself] at hfocc
    have h2 : a0 = occ := Option.some.inj hfocc
    rw [← h2, hk] at hocck
    cases hocck
  refine ⟨?_, ?_, ?_, ?_⟩
  · rw [moveActor, hself]
    dsimp only
    rw [hk]
    dsimp only
    unfold playerMoveAux
    dsimp only
    rw [if_pos hib, hga]
    dsimp only
    rw [if_neg (by rw [hocck]; simp [Kind.isMonster])]
    rw [if_neg (by rw [hocck]; simp)]
    rw [if_neg (by rw [hocck]; simp)]
    rw [if_neg (by rw [hocck]; simp)]
  · exact findActor_base_move_self hself rfl dx dy
  · rw [findActor_base_move_ne hne]
    exact hfocc
  · intro bid b b' hb hb'
    by_cases hbid : bid = a0.id
    · subst hbid
      have hba : b = a0 := by
        rw [hb] at hself
        exact Option.some.inj hself
      rw [findActor_base_move_self hself rfl dx dy] at hb'
      cases hb'
      rw [hba]
    · rw [findActor_base_move_ne hbid, hb] at hb'
      cases hb'
      rfl

/-- C10 witness: the concrete player next to the concrete ExplodingMonster. -/
theorem C10_player_onto_exploding_witness :
    moveActor 4 c10Stage 0 0 1 0
      = some (some true, base_move c10Stage (mkA 0 Kind.player 5 5 5 5) 1 0) :=
  (C10_player_onto_exploding 3
    (show findActor c10Stage 0 = some (mkA 0 Kind.player 5 5 5 5) from
      by decide)
    (by decide) (by decide)
    (show get_actor c10Stage ((mkA 0 Kind.player 5 5 5 5).x + 1)
        ((mkA 0 Kind.player 5 5 5 5).y + 0)
      = some (mkA 1 Kind.explodingMonster 6 5 30 5) from by decide)
    (by decide)).1

/-- C3 amended (the spec's own scenario, with the transient overlap made
explicit): a Player move into an in-bounds cell occupied by an EzMonster
kills the monster (life 0) and relocates the Player onto the cell the
monster still occupies — the move returns True with both actors on the
target cell — and the monster is removed from the stage's collection by its
own next step. -/
theorem C3_ez_contact {s : GState} {pid otherId : Nat} {p m : WActor}
    {dx dy : Int} (fuel : Nat)
    (hp : findActor s pid = some p) (hk : p.kind = Kind.player)
    (hib : is_in_bounds s (p.x + dx) (p.y + dy) = true)
    (hga : get_actor s (p.x + dx) (p.y + dy) = some m)
    (hmk : m.kind = Kind.ezMonster)
    (hstuck : m.stuck = false) (hdn : m.delayN ≠ 0)
    (hcount : s.stage.count m.id = 1) :
    moveActor (fuel + 1) s pid otherId dx dy
      = some (some true,
          base_move (setActor s { m with life := 0 }) p dx dy) ∧
    findActor (base_move (setActor s { m with life := 0 }) p dx dy) m.id
      = some { m with life := 0 } ∧
    m.id ∈ (base_move (setActor s { m with life := 0 }) p dx dy).stage ∧
    findActor (base_move (setActor s { m with life := 0 }) p dx dy) pid
      = some { p with x := p.x + dx, y := p.y + dy } ∧
    m.x = p.x + dx ∧ m.y = p.y + dy ∧
    ∃ s5, monsterStep (base_move (setActor s { m with life := 0 }) p dx dy)
        { m with life := 0 } = some s5 ∧
      s5.stage.contains m.id = false := by
  have hid : p.id = pid := findActor_id hp
  subst hid
  obtain ⟨hmx, hmy, hmmem, hfm⟩ := get_actor_spec hga
  have hne : ¬p.id = m.id := by
    intro h
    rw [h, hfm] at hp
    have h2 : m = p := Option.some.inj hp
    rw [← h2, hmk] at hk
    cases hk
  have hfm1 : findActor (setActor s { m with life := 0 }) m.id
      = some { m with life := 0 } := by
    rw [findActor_setActor, if_pos rfl,
      if_pos (show (findActor s m.id).isSome = true by rw [hfm]; rfl)]
  have hfp1 : findActor (setActor s { m with life := 0 }) p.id = some p := by
    rw [findActor_setActor, if_neg hne]
    exact hp
  refine ⟨?_, ?_, ?_, ?_, hmx, hmy, ?_⟩
  · rw [moveActor, hp]
    dsimp only
    rw [hk]
    dsimp only
    unfold playerMoveAux
    dsimp only
    rw [if_pos hib, hga]
    dsimp only
    rw [if_neg (by rw [hmk]; simp [Kind.isMonster])]
    rw [if_neg (by rw [hmk]; simp)]
    rw [if_pos hmk]
    rw [hfp1]
  · rw [findActor_base_move_ne (fun h => hne h.symm)]
    exact hfm1
  · exact hmmem
  · exact findActor_base_move_self hfp1 rfl dx dy
  · refine monsterStep_removes ?_ (Or.inr hmk) rfl hstuck hdn hcount
    rw [findActor_base_move_ne (fun h => hne h.symm)]
    exact hfm1

/-- C3 amended witness: the concrete player-next-to-EzMonster stage. -/
theorem C3_ez_contact_witness :
    moveActor 4 c3Stage 0 0 1 0
      = some (some true,
          base_move (setActor c3Stage
            { mkA 1 Kind.ezMonster 6 5 5 5 with life := 0 })
            (mkA 0 Kind.player 5 5 5 5) 1 0) :=
  (C3_ez_contact 3
    (show findActor c3Stage 0 = some (mkA 0 Kind.player 5 5 5 5) from
      by decide)
    (by decide) (by decide)
    (show get_actor c3Stage ((mkA 0 Kind.player 5 5 5 5).x + 1)
        ((mkA 0 Kind.player 5 5 5 5).y + 0)
      = some (mkA 1 Kind.ezMonster 6 5 5 5) from by decide)
    (by decide) (by decide) (by decide) (by decide)).1

/-- C6 amended: when the KeyboardPlayer's life is 0, its own step sets the
dead flag (on the first observation) and removes the player from the
stage's actor collection — the Player is not exempt from removal on death —
and a base Monster with life 0 is likewise deregistered at the top of its
next step. -/
theorem C6_death_handling :
    (∀ (s : GState) (pid : Nat) (p : WActor),
      findActor s pid = some p → p.kind = Kind.player → p.life = 0 →
      p.lastEvent = none → s.stage.count pid = 1 →
      onStageAfter (actorStep s pid) pid = false ∧
      deadFlagAfter (actorStep s pid) pid = some true) ∧
    (∀ (s : GState) (mid : Nat) (m : WActor),
      findActor s mid = some m →
      (m.kind = Kind.normalMonster ∨ m.kind = Kind.ezMonster) →
      m.life = 0 → m.stuck = false → m.delayN ≠ 0 →
      s.stage.count mid = 1 →
      onStageAfter (actorStep s mid) mid = false) := by
  constructor
  · intro s pid p hp hk hlife hev hcount
    have hid : p.id = pid := findActor_id hp
    have hmem : pid ∈ s.stage := by
      have : 0 < s.stage.count pid := by omega
      exact List.count_pos_iff.mp this
    obtain ⟨l2, hl2⟩ := removeFirst_isSome hmem
    have hnot : pid ∉ l2 := removeFirst_not_mem hcount hl2
    unfold actorStep
    rw [hp]
    dsimp only
    rw [hk]
    dsimp only
    unfold kbStep
    rw [hev]
    dsimp only
    rw [hid, hp]
    dsimp only
    unfold kb_is_dead
    by_cases hdead : p.dead = false
    · rw [if_pos (show p.life = 0 ∧ p.dead = false from ⟨hlife, hdead⟩)]
      have hfd : findActor (setActor s { p with dead := true }) pid
          = some { p with dead := true } := by
        rw [findActor_setActor, if_pos hid.symm,
          if_pos (show (findActor s p.id).isSome = true by
            rw [hid, hp]; rfl)]
      rw [if_pos rfl]
      unfold remove_actor
      rw [setActor_stage,
        show removeFirst s.stage p.id = some l2 by rw [hid]; exact hl2,
        Option.map_some']
      constructor
      · show l2.contains pid = false
        simpa using hnot
      · show Option.map WActor.dead
          (findActor (setActor s { p with dead := true }) pid) = some true
        rw [hfd]
        rfl
    · have hdead2 : p.dead = true := by
        cases h : p.dead
        · exact absurd h hdead
        · rfl
      rw [if_neg (show ¬(p.life = 0 ∧ p.dead = false) from
        fun h => hdead h.2)]
      rw [if_pos (show p.life = 0 from hlife)]
      have hfd : findActor (setActor s p) pid = some p := by
        rw [findActor_setActor, if_pos hid.symm,
          if_pos (show (findActor s p.id).isSome = true by
            rw [hid, hp]; rfl)]
      rw [if_pos rfl]
      unfold remove_actor
      rw [setActor_stage,
        show removeFirst s.stage p.id = some l2 by rw [hid]; exact hl2,
        Option.map_some']
      constructor
      · show l2.contains pid = false
        simpa using hnot
      · show Option.map WActor.dead (findActor (setActor s p) pid)
          = some true
        rw [hfd]
        simp [hdead2]
  · intro s mid m hm hkind hlife hstuck hdn hcount
    obtain ⟨s4, hstep, hcontain⟩ :=
      monsterStep_removes hm hkind hlife hstuck hdn hcount
    unfold actorStep
    rw [hm]
    dsimp only
    rcases hkind with hk | hk <;> rw [hk] <;> dsimp only <;>
      rw [hstep] <;> exact hcontain

/-- C6 amended witness: the concrete dead player is deregistered with the
dead flag set. -/
theorem C6_death_handling_witness :
    onStageAfter (actorStep c6Stage 0) 0 = false ∧
    deadFlagAfter (actorStep c6Stage 0) 0 = some true :=
  C6_death_handling.1 c6Stage 0 (mkA 0 Kind.player 5 5 0 5) (by decide)
    (by decide) (by decide) (by decide) (by decide)

/-- C7 amended: for a live (life nonzero), non-stuck base Monster that is
the stage's first actor at its own cell: if all 8 Moore neighbours are each
out of bounds or hold a Box or Monster, its step decrements its life by
exactly 1; if untrapped and a NormalMonster, its step resets its life to 5.
(A monster whose life already reached 0 instead deregisters, after which
the 9-cell scan sees its own vacated cell as free and resets its life to 5;
see the counterexample.) -/
theorem C7_trapped_decay {s : GState} {mid : Nat} {m : WActor}
    (hm : findActor s mid = some m)
    (hkind : m.kind = Kind.normalMonster ∨ m.kind = Kind.ezMonster)
    (halive : m.life ≠ 0)
    (hstuck : m.stuck = false)
    (hdn : m.delayN ≠ 0)
    (hcenter : get_actor s m.x m.y = some m) :
    (neighbours8Blocked s m = true →
      lifeAfter (actorStep s mid) mid = some (m.life - 1)) ∧
    (neighbours8Blocked s m = false → m.kind = Kind.normalMonster →
      lifeAfter (actorStep s mid) mid = some 5) := by
  have hid : m.id = mid := findActor_id hm
  have hcb : blockedCell s m.x m.y = true := by
    unfold blockedCell
    rw [hcenter]
    rcases hkind with h | h <;> simp [h, Kind.isMonster]
  have htr : is_trapped s m = neighbours8Blocked s m := is_trapped_eq hcb
  have hrunStep : ∀ v : Int,
      (if is_trapped s m = true then { m with life := m.life - 1 }
        else { m with life := 5 }) = { m with life := v } →
      lifeAfter (actorStep s mid) mid = some v := by
    intro v hv
    unfold actorStep
    rw [hm]
    dsimp only
    have hbody : lifeAfter (monsterStep s m) mid = some v := by
      unfold monsterStep
      rw [if_neg (by simp [is_dead, halive])]
      dsimp only
      rw [hv]
      rw [if_neg (show ¬({ m with life := v } : WActor).stuck = true by
        simp [hstuck])]
      dsimp only
      have hfind2 : findActor (setActor s { m with life := v }) m.id
          = some { m with life := v } := by
        rw [findActor_setActor, if_pos rfl,
          if_pos (show (findActor s m.id).isSome = true by
            rw [hid, hm]; rfl)]
      obtain ⟨s4, htail, _, hsome, hlifep⟩ := monsterTail_run hfind2
        (by rcases hkind with h | h <;> simp [h]) hdn
      rw [htail]
      obtain ⟨b', hb'⟩ := Option.isSome_iff_exists.mp hsome
      have hlp := hlifep b' hb'
      rw [hid] at hb'
      show Option.map WActor.life (findActor s4 mid) = some v
      rw [hb']
      simp [hlp]
    rcases hkind with hk | hk <;> rw [hk] <;> dsimp only <;> exact hbody
  constructor
  · intro h8
    refine hrunStep (m.life - 1) ?_
    rw [if_pos (show is_trapped s m = true by rw [htr]; exact h8)]
  · intro h8 _
    refine hrunStep 5 ?_
    rw [if_neg (show ¬is_trapped s m = true by rw [htr, h8]; simp)]

/-- C7 amended witness: the live trapped monster in the blocked corner
loses exactly one life. -/
theorem C7_trapped_decay_witness :
    lifeAfter (actorStep c7AliveStage 1) 1 = some 2 :=
  (C7_trapped_decay
    (show findActor c7AliveStage 1 = some (mkA 1 Kind.normalMonster 0 0 3 5)
      from by decide)
    (Or.inl (by decide)) (by decide) (by decide) (by decide)
    (by decide)).1 (by decide)

/-- C8 amended: for every actor object, is_dead (and KeyboardPlayer's
overriding is_dead, which also flips the dead flag) returns true exactly
when the life counter equals 0, and the death check itself never changes
the life counter; negative life, however, is reachable (see the
counterexample), so dead-detection by equality misses it. -/
theorem C8_dead_iff_life_zero :
    (∀ a : WActor, is_dead a = true ↔ a.life = 0) ∧
    (∀ a : WActor, (kb_is_dead a).1 = true ↔ a.life = 0) ∧
    (∀ a : WActor, (kb_is_dead a).2.life = a.life) := by
  refine ⟨?_, ?_, ?_⟩
  · intro a
    unfold is_dead
    split <;> simp_all
  · intro a
    unfold kb_is_dead
    split
    · simp_all
    · split <;> simp_all
  · intro a
    unfold kb_is_dead
    split
    · rfl
    · split <;> rfl

/-- C1: Stage.step iterates the live actor list while Stage.remove_actor
mutates it in place, so the self-removal of the dead monster (stage index 0)
shifts the Flame down a slot and the tick's index walks past it: the Flame
was in the collection at the start of the tick, a genuine step of it would
burn its life from 10 to 9, yet after the tick its life is still 10 even
though it stayed in the collection — the removal skipped the stepping of the
subsequent live actor. -/
theorem C1_skip_on_removal :
    c1Stage.stage = [1, 2] ∧
    lifeAfter (actorStep c1Stage 2) 2 = some 9 ∧
    lifeAfter (stageStep c1Stage) 2 = some 10 ∧
    onStageAfter (stageStep c1Stage) 2 = true ∧
    onStageAfter (stageStep c1Stage) 1 = false := by
  decide

/-- C3 counterexample: a Player move request that completes with relocation
onto the EzMonster's cell leaves two actors — the player and the killed
monster — occupying (6,5), so the one-actor-per-cell invariant fails and the
player's cell does contain another actor right after the move completes. -/
theorem C3_overlap_counterexample :
    moveVal (moveActor 4 c3Stage 0 0 1 0) = some (some true) ∧
    posAfter (moveState (moveActor 4 c3Stage 0 0 1 0)) 0 = some (6, 5) ∧
    posAfter (moveState (moveActor 4 c3Stage 0 0 1 0)) 1 = some (6, 5) ∧
    onStageAfter (moveState (moveActor 4 c3Stage 0 0 1 0)) 0 = true ∧
    onStageAfter (moveState (moveActor 4 c3Stage 0 0 1 0)) 1 = true ∧
    lifeAfter (moveState (moveActor 4 c3Stage 0 0 1 0)) 1 = some 0 := by
  decide

/-- C4 counterexample: the ExplodingMonster constructed with fuseOffset 20
does start with life 30, but being never trapped it loses only 1 life per
tick (the unconditional fuse decrement; the extra decrement fires only when
trapped), so after 15 ticks it is alive with life 15 rather than dead. -/
theorem C4_fifteen_ticks_counterexample :
    (findActor c4Stage 7).map WActor.life = some 30 ∧
    ((List.range 16).all fun k => !trappedAfter (stageSteps k c4Stage) 7) = true ∧
    lifeAfter (stageSteps 15 c4Stage) 7 = some 15 ∧
    onStageAfter (stageSteps 15 c4Stage) 7 = true := by
  decide

/-- C4 amended: with fuseOffset 20 the life starts at 30 and, the monster
being never trapped throughout the run, decreases by exactly 1 per tick; the
monster stays on the stage through tick 29 and is removed (exploding) during
the 30th tick. -/
theorem C4_thirty_ticks :
    (findActor c4Stage 7).map WActor.life = some 30 ∧
    ((List.range 30).all fun k =>
      (!trappedAfter (stageSteps k c4Stage) 7) &&
      decide (lifeAfter (stageSteps k c4Stage) 7 = some (30 - (k : Int))) &&
      onStageAfter (stageSteps k c4Stage) 7) = true ∧
    onStageAfter (stageSteps 30 c4Stage) 7 = false := by
  decide

/-- C5: pushing the StickyBox into the monster's cell marks the monster
stuck with that box instance but records no stick position (StickyBox.move
never assigns stick_position), so the monster's next step subscripts None
and the following tick of the stage crashes instead of completing. -/
theorem C5_sticky_crash :
    moveVal (moveActor 5 c5Stage 1 0 1 0) = some none ∧
    ((moveState (moveActor 5 c5Stage 1 0 1 0)).bind fun s =>
      (findActor s 2).map fun a => (a.stuck, a.stickWith, a.stickPos))
      = some (true, some 1, none) ∧
    posAfter (moveState (moveActor 5 c5Stage 1 0 1 0)) 2 = some (5, 5) ∧
    ((moveState (moveActor 5 c5Stage 1 0 1 0)).bind stageStep) = none := by
  decide

/-- C6 counterexample: the KeyboardPlayer with life 0 is removed from the
stage's actor collection by its own step (line 192 of ww.py), so the Player
is not exempt from removal on death. -/
theorem C6_player_removed_counterexample :
    onStageAfter (actorStep c6Stage 0) 0 = false ∧
    deadFlagAfter (actorStep c6Stage 0) 0 = some true := by
  decide

/-- C7 counterexample: a monster whose 8 neighbours are all blocked but
whose life is already 0 deregisters at the top of its step, after which the
9-cell trapped scan sees its own (now vacated) cell as unblocked, so the
step resets its life to 5 instead of decrementing it by exactly 1. -/
theorem C7_dead_trapped_counterexample :
    ((findActor c7Stage 1).map fun a => neighbours8Blocked c7Stage a)
      = some true ∧
    (findActor c7Stage 1).map WActor.life = some 0 ∧
    lifeAfter (actorStep c7Stage 1) 1 = some 5 ∧
    onStageAfter (actorStep c7Stage 1) 1 = false := by
  decide

/-- C8 counterexample: an ExplodingMonster stepping while trapped with
life 1 suffers the trapped decrement and then the fuse decrement, landing on
-1: its life is negative, is_dead is false, and it stays on the stage. -/
theorem C8_negative_life_counterexample :
    ((findActor c8Stage 1).map fun a => neighbours8Blocked c8Stage a)
      = some true ∧
    (findActor c8Stage 1).map WActor.life = some 1 ∧
    lifeAfter (actorStep c8Stage 1) 1 = some (-1) ∧
    ((actorStep c8Stage 1).bind fun s => (findActor s 1).map is_dead)
      = some false ∧
    onStageAfter (actorStep c8Stage 1) 1 = true := by
  decide

/-- C9 counterexample: the box pushed into the wall has its move refused by
the occupant, and Box.move falls off the end of the function: the returned
value is Python None, not False, so Box.move does not always return a
boolean. -/
theorem C9_none_counterexample :
    moveVal (moveActor 5 c9Stage 1 0 1 0) = some none ∧
    moveVal (moveActor 5 c9Stage 1 0 1 0) ≠ some (some false) ∧
    posAfter (moveState (moveActor 5 c9Stage 1 0 1 0)) 1 = some (5, 5) := by
  decide

end WW
